import Mathlib

/-!
Verification of the py_wlc core: the indexed growth-series engine
(`IndexSeries`, `Discount`, `GdpDeflator`) and the `Cost` basis-conversion
algebra, shallowly embedded from `src/py_wlc`.

Modelling conventions:
* Python floats are modelled as `ℚ`; every arithmetic operation used by the
  code (`+`, `-`, `*`, `/` on finite values) is exact in `ℚ`.
* Python exceptions are modelled by `Except PyErr` (or an `Option PyErr`
  component when in-place mutation must survive the exception).
* Python dicts keyed by years are modelled as association lists where an
  insertion conses a pair; a later insertion of the same key shadows the
  earlier one, which matches dict lookup semantics (only key-set membership,
  lookup, and key min/max are ever used by the code).
* Mutation of `self` is modelled by explicit state passing: a method that
  mutates returns the updated `IndexSeries` alongside its result.
-/

set_option maxRecDepth 10000

/-- Python exception kinds raised by the modelled code. -/
inductive PyErr where
  | keyError : PyErr
  | valueError : String → PyErr
  | zeroDivision : PyErr
  | attributeError : String → PyErr
  | typeError : PyErr
  deriving DecidableEq, Repr

/-- Association list modelling a Python `dict` with `int` keys and `float`
values. -/
abbrev YDict := List (Int × ℚ)

/-- Dict lookup: the most recently inserted binding of the key wins
(`d[k]`, returning `none` for a `KeyError`). -/
def lookupD (l : YDict) (k : Int) : Option ℚ :=
  (l.find? (fun p => p.1 == k)).map Prod.snd

/-- Dict insertion `d[k] = v`: the new binding shadows any earlier one. -/
def insertD (l : YDict) (k : Int) (v : ℚ) : YDict :=
  (k, v) :: l

/-- Python `max` over a list of ints, `none` when the list is empty
(where Python raises `ValueError`). -/
def intMax? : List Int → Option Int
  | [] => none
  | a :: l =>
    some (match intMax? l with
          | none => a
          | some b => max a b)

/-- Python `min` over a list of ints, `none` when the list is empty. -/
def intMin? : List Int → Option Int
  | [] => none
  | a :: l =>
    some (match intMin? l with
          | none => a
          | some b => min a b)

theorem lookupD_cons (k k' : Int) (v : ℚ) (l : YDict) :
    lookupD (insertD l k v) k' = if k' = k then some v else lookupD l k' := by
  simp only [insertD, lookupD, List.find?]
  by_cases h : k' = k
  · simp [h]
  · have : (k == k') = false := by simpa [beq_iff_eq] using fun e => h e.symm
    simp [this, h]

theorem intMax?_cons (a : Int) (l : List Int) :
    intMax? (a :: l) = some (match intMax? l with | none => a | some b => max a b) := rfl

theorem intMin?_cons (a : Int) (l : List Int) :
    intMin? (a :: l) = some (match intMin? l with | none => a | some b => min a b) := rfl

/-- A rate table: the `dict` contents plus whether the dict is an
`ExtendedDict` (`py_wlc.generic.ExtendedDict`), whose `__getitem__`
extrapolates beyond the smallest/largest key. -/
structure RateDict where
  entries : YDict
  ext : Bool
  deriving DecidableEq, Repr

/-- Lookup in a rate table. For a plain dict this is `dict.__getitem__`;
for an `ExtendedDict` it follows `ExtendedDict.__getitem__`:
a key above the largest key yields the value at the largest key, one below
the smallest yields the value at the smallest, and a missing key between
them (or any key of an empty dict) raises `KeyError` (`none`). -/
def RateDict.getItem? (d : RateDict) (k : Int) : Option ℚ :=
  match lookupD d.entries k with
  | some v => some v
  | none =>
    if d.ext then
      match intMax? (d.entries.map Prod.fst), intMin? (d.entries.map Prod.fst) with
      | some mx, some mn =>
        if k > mx then lookupD d.entries mx
        else if k < mn then lookupD d.entries mn
        else none
      | _, _ => none
    else none

/-- `d.get(k, default)`: both `dict.get` and `ExtendedDict.get` return the
looked-up value and fall back to `default` on `KeyError`. -/
def RateDict.get (d : RateDict) (k : Int) (default : ℚ) : ℚ :=
  (d.getItem? k).getD default

/-!
## Cost (`src/py_wlc/economics/cost.py`)

A `Cost` captures `discount[year]` and `deflator[year]` at construction.
The embedding takes those two captured floats directly as arguments
(`discountYearVal`, `deflatorYearVal`), which covers every possible
discount/deflator series, and models the flag bitset as a `Nat`.
-/

structure Cost where
  value : ℚ
  year : Int
  discount_factor : ℚ
  deflation_factor : ℚ
  adjustment_factor : ℚ
  deriving DecidableEq, Repr

namespace Cost

def FACTOR_COST : Nat := 1
def RESOURCE_COST : Nat := 1
def MARKET_PRICE : Nat := 2
def NOMINAL : Nat := 4
def REAL : Nat := 8
def PRESENT_VALUE : Nat := 16

/-- `Cost.validate_type`: returns the `ValueError` raised for a
contradictory flag combination, or `none` when the flags are valid.
The four checks are performed in source order. -/
def validate_type (type_ : Nat) : Option PyErr :=
  if type_ &&& MARKET_PRICE ≠ 0 ∧ type_ &&& FACTOR_COST ≠ 0 then
    some (.valueError "Cost cannot be market price and factor cost.")
  else if type_ &&& NOMINAL ≠ 0 ∧ type_ &&& REAL ≠ 0 then
    some (.valueError "Cost cannot be real and nominal.")
  else if type_ &&& NOMINAL ≠ 0 ∧ type_ &&& PRESENT_VALUE ≠ 0 then
    some (.valueError "Nominal costs cannot be present values.")
  else if type_ &&& FACTOR_COST ≠ 0 ∧ type_ &&& PRESENT_VALUE ≠ 0 then
    some (.valueError "Factor costs cannot be present values")
  else none

/-- `Cost.__init__`. Arguments `discountYearVal` and `deflatorYearVal` are
the captured floats `discount[year]` and `deflator[year]`. Python float
division by zero raises `ZeroDivisionError`. After normalisation the stored
`value` is the nominal factor cost. -/
def init (value : ℚ) (type_ : Nat) (year : Int)
    (discountYearVal deflatorYearVal adjustment_factor : ℚ) : Except PyErr Cost :=
  match validate_type type_ with
  | some e => .error e
  | none =>
    if deflatorYearVal = 0 then .error .zeroDivision
    else
      let discount_factor := discountYearVal
      let deflation_factor := 100 / deflatorYearVal
      -- if type_ & PRESENT_VALUE: value /= discount_factor; type_ = MARKET_PRICE | REAL
      let step1 : Except PyErr (ℚ × Nat) :=
        if type_ &&& PRESENT_VALUE ≠ 0 then
          if discount_factor = 0 then .error .zeroDivision
          else .ok (value / discount_factor, MARKET_PRICE ||| REAL)
        else .ok (value, type_)
      match step1 with
      | .error e => .error e
      | .ok (v1, t1) =>
        -- if type_ & REAL: value /= deflation_factor; type_ -= REAL - NOMINAL
        let step2 : Except PyErr (ℚ × Nat) :=
          if t1 &&& REAL ≠ 0 then
            if deflation_factor = 0 then .error .zeroDivision
            else .ok (v1 / deflation_factor, t1 - (REAL - NOMINAL))
          else .ok (v1, t1)
        match step2 with
        | .error e => .error e
        | .ok (v2, t2) =>
          -- if type_ & MARKET_PRICE: value /= adjustment_factor
          if t2 &&& MARKET_PRICE ≠ 0 then
            if adjustment_factor = 0 then .error .zeroDivision
            else .ok ⟨v2 / adjustment_factor, year, discount_factor,
                      deflation_factor, adjustment_factor⟩
          else .ok ⟨v2, year, discount_factor, deflation_factor, adjustment_factor⟩

/-- `Cost.present_value` property. -/
def present_value (c : Cost) : ℚ :=
  c.value * c.adjustment_factor * c.deflation_factor * c.discount_factor

/-- `Cost.as_type`: project the stored nominal factor cost into the
requested basis. -/
def as_type (c : Cost) (type_ : Nat) : Except PyErr ℚ :=
  match validate_type type_ with
  | some e => .error e
  | none =>
    if type_ &&& PRESENT_VALUE ≠ 0 then .ok c.present_value
    else
      let v := c.value
      let v := if type_ &&& REAL ≠ 0 then v * c.deflation_factor else v
      let v := if type_ &&& MARKET_PRICE ≠ 0 then v * c.adjustment_factor else v
      .ok v

/-- `Cost.__eq__`: compares all five stored attributes. -/
def eqPy (a b : Cost) : Bool :=
  decide (a.value = b.value) && decide (a.year = b.year) &&
  decide (a.discount_factor = b.discount_factor) &&
  decide (a.deflation_factor = b.deflation_factor) &&
  decide (a.adjustment_factor = b.adjustment_factor)

/-- `Cost.__lt__`: `NotImplemented` (modelled `none`) when year or any of
the three factors differ, else compares the stored values. -/
def lt (a b : Cost) : Option Bool :=
  if a.year = b.year ∧ a.discount_factor = b.discount_factor ∧
     a.deflation_factor = b.deflation_factor ∧
     a.adjustment_factor = b.adjustment_factor then
    some (decide (a.value < b.value))
  else none

/-- `Cost.__le__`: propagates `NotImplemented` from `__lt__`. -/
def le (a b : Cost) : Option Bool :=
  (lt a b).map (fun l => l || eqPy a b)

/-- `Cost.__ge__`: propagates `NotImplemented` from `__lt__`. -/
def ge (a b : Cost) : Option Bool :=
  (lt a b).map (fun l => eqPy a b || !l)

/-- `Cost.__gt__`: propagates `NotImplemented` from `__lt__`. -/
def gt (a b : Cost) : Option Bool :=
  (lt a b).map (fun l => !eqPy a b && !l)

/-- Python evaluation of `a < b`: try `a.__lt__(b)`, then the reflected
`b.__gt__(a)`; if both return `NotImplemented`, raise `TypeError`. -/
def pyLess (a b : Cost) : Except PyErr Bool :=
  match lt a b with
  | some r => .ok r
  | none =>
    match gt b a with
    | some r => .ok r
    | none => .error .typeError

/-- Python evaluation of `a > b` (reflected operation is `b.__lt__(a)`). -/
def pyGreater (a b : Cost) : Except PyErr Bool :=
  match gt a b with
  | some r => .ok r
  | none =>
    match lt b a with
    | some r => .ok r
    | none => .error .typeError

/-- Python evaluation of `a <= b` (reflected operation is `b.__ge__(a)`). -/
def pyLessEq (a b : Cost) : Except PyErr Bool :=
  match le a b with
  | some r => .ok r
  | none =>
    match ge b a with
    | some r => .ok r
    | none => .error .typeError

/-- Python evaluation of `a >= b` (reflected operation is `b.__le__(a)`). -/
def pyGreaterEq (a b : Cost) : Except PyErr Bool :=
  match ge a b with
  | some r => .ok r
  | none =>
    match le b a with
    | some r => .ok r
    | none => .error .typeError

end Cost

/-!
## IndexSeries (`src/py_wlc/generic/growth.py`)

The state of an `IndexSeries` object. `values` is the lazily-filled cache,
keyed by relative year. Subclass dispatch of `_extend_values` (a template
method, `NotImplementedError` in the base class) is modelled by passing the
subclass extension function where the base class calls it.

An extension function returns the updated state together with
`some e` when it raised exception `e` part-way (the in-place mutations it
made before raising are kept, as in Python).
-/

structure IndexSeries where
  base_year : Int
  year_zero : Int
  rates : RateDict
  initial_rate : ℚ
  final_rate : ℚ
  values : YDict
  deriving DecidableEq, Repr

/-- One extension-policy function: `self._extend_values(year)`. -/
abbrev ExtendFn := IndexSeries → Int → IndexSeries × Option PyErr

namespace IndexSeries

/-- `IndexSeries.rate`: `try: return self._rates[year] except KeyError:`
fall back to the initial rate below `min(self._rates)` and the final rate
otherwise; `min` of an empty dict raises `ValueError`. -/
def rate (s : IndexSeries) (year : Int) : Except PyErr ℚ :=
  match s.rates.getItem? year with
  | some r => .ok r
  | none =>
    match intMin? (s.rates.entries.map Prod.fst) with
    | none => .error (.valueError "min() arg is an empty sequence")
    | some mn => .ok (if year < mn then s.initial_rate else s.final_rate)

/-- `IndexSeries.__getitem__`: convert to a relative year, lazily extend the
cache if the relative year is not cached, then look the value up (a final
`KeyError` escapes to the caller). -/
def getItem (extendV : ExtendFn) (s : IndexSeries) (year : Int) :
    Except PyErr ℚ × IndexSeries :=
  match
    if (lookupD s.values (year - s.year_zero)).isSome then (s, none)
    else extendV s (year - s.year_zero) with
  | (s', some e) => (.error e, s')
  | (s', none) =>
    match lookupD s'.values (year - s.year_zero) with
    | some v => (.ok v, s')
    | none => (.error .keyError, s')

/-- `IndexSeries.get`: calls `__getitem__` but discards its result and falls
through (implicitly returning Python `None`, modelled `Option.none`); only
when the lookup raises `KeyError` does it return the supplied `default`.
Other exceptions propagate. -/
def get (getitem : IndexSeries → Int → Except PyErr ℚ × IndexSeries)
    (s : IndexSeries) (year : Int) (default : Option ℚ) :
    Except PyErr (Option ℚ) × IndexSeries :=
  match getitem s year with
  | (.ok _, s') => (.ok none, s')
  | (.error .keyError, s') => (.ok default, s')
  | (.error e, s') => (.error e, s')

/-- The gap-filling loop of `IndexSeries.__init__`:
`for year in range(min_year, max_year)` carry the running rate across gaps,
writing it into `self._rates` for years missing from `rates`. -/
def infillLoop (orig : YDict) (acc : YDict) (rate : ℚ) (cur : Int) :
    Nat → YDict
  | 0 => acc
  | n + 1 =>
    match lookupD orig cur with
    | some r => infillLoop orig acc r (cur + 1) n
    | none => infillLoop orig (insertD acc cur rate) rate (cur + 1) n

/-- `IndexSeries.__init__`. `min`/`max` of an empty rates dict raise
`ValueError`; `rates[min(rates)]` and `rates[max(rates)]` cannot fail since
the min/max keys are present (the `getD 0` fallback is dead code). The final
`self._extend_values(0)` call is dispatched to the subclass extension
function and its exception, if any, propagates. -/
def init (base_year : Int) (rates : RateDict) (initial_value : ℚ)
    (year_zero? : Option Int) (initial_rate? : Option ℚ)
    (extendV : ExtendFn) : Except PyErr IndexSeries :=
  let year_zero := year_zero?.getD base_year
  match intMin? (rates.entries.map Prod.fst),
        intMax? (rates.entries.map Prod.fst) with
  | some mn, some mx =>
    let initial_rate :=
      match initial_rate? with
      | some r => r
      | none => (lookupD rates.entries mn).getD 0
    let final_rate := (lookupD rates.entries mx).getD 0
    let filled := infillLoop rates.entries rates.entries initial_rate mn
      (mx - mn).toNat
    let s : IndexSeries :=
      { base_year := base_year
        year_zero := year_zero
        rates := { entries := filled, ext := rates.ext }
        initial_rate := initial_rate
        final_rate := final_rate
        values := [(base_year - year_zero, initial_value)] }
    match extendV s 0 with
    | (s', none) => .ok s'
    | (_, some e) => .error e
  | _, _ => .error (.valueError "min() arg is an empty sequence")

end IndexSeries

/-!
## Discount (`src/py_wlc/economics/discount.py`)
-/

namespace Discount

/-- The default HM Treasury Green Book rate schedule `Discount.RATES`. -/
def RATES : YDict :=
  [(0, 35/1000), (31, 3/100), (76, 25/1000), (126, 2/100),
   (201, 15/1000), (301, 1/100)]

/-- `Discount.rate`: zero before `base_year - year_zero`, otherwise the
inherited `IndexSeries.rate`. -/
def rate (s : IndexSeries) (year : Int) : Except PyErr ℚ :=
  if year < s.base_year - s.year_zero then .ok 0
  else IndexSeries.rate s year

/-- The loop body of `Discount._extend_values`:
`for year_ in range(max(self._values), year):`
`self._values[year_ + 1] = self._values[year_] / (1.0 + self.rate(year_ + 1))`.
`cur` is the current loop variable and the `Nat` argument the number of
remaining iterations. A missing cache entry raises `KeyError`, division by
zero raises `ZeroDivisionError`; entries inserted before the exception are
kept. -/
def extendLoop (s : IndexSeries) (cur : Int) : Nat → IndexSeries × Option PyErr
  | 0 => (s, none)
  | n + 1 =>
    match lookupD s.values cur with
    | none => (s, some .keyError)
    | some v =>
      match rate s (cur + 1) with
      | .error e => (s, some e)
      | .ok r =>
        if 1 + r = 0 then (s, some .zeroDivision)
        else
          extendLoop
            { s with values := insertD s.values (cur + 1) (v / (1 + r)) }
            (cur + 1) n

/-- `Discount._extend_values`: extend forward from the largest cached
relative year up to `year` (an empty loop when `year` is not larger). -/
def extendValues (s : IndexSeries) (year : Int) : IndexSeries × Option PyErr :=
  match intMax? (s.values.map Prod.fst) with
  | none => (s, some (.valueError "max() arg is an empty sequence"))
  | some mx => extendLoop s mx (year - mx).toNat

/-- `Discount.__getitem__`: the inherited lookup with `KeyError` caught and
turned into the factor `1.0`; other exceptions propagate. -/
def getItem (s : IndexSeries) (year : Int) : Except PyErr ℚ × IndexSeries :=
  match IndexSeries.getItem extendValues s year with
  | (.error .keyError, s') => (.ok 1, s')
  | r => r

/-- Names bound in the class bodies of `Discount` and its base
`IndexSeries` (`discount.py`, `growth.py`): attribute lookup of a method on
a `Discount` instance searches exactly these (plus `object`, which has no
`_infill_rates` either). -/
def classAttrs : List String :=
  ["RATES", "__init__", "__getitem__", "rebase", "rate", "_extend_values",
   "__iter__", "__len__", "__hash__", "__eq__", "get"]

/-- `Discount.__init__`. Its first statement after the default-rate fallback
is `self._infill_rates(rates)`; no attribute `_infill_rates` exists on
`Discount`, `IndexSeries` or `object`, so the call raises `AttributeError`
before `super().__init__` runs. (Were the attribute present, construction
would proceed by wrapping the rates in an `ExtendedDict` and calling the
inherited constructor with `initial_value=1.0`.) -/
def init (base_year : Int) (rates? : Option YDict) (year_zero? : Option Int) :
    Except PyErr IndexSeries :=
  let rates := rates?.getD RATES
  if "_infill_rates" ∈ classAttrs then
    IndexSeries.init base_year { entries := rates, ext := true } 1
      year_zero? none extendValues
  else
    .error (.attributeError "'Discount' object has no attribute '_infill_rates'")

/-- Modelled from the spec: `Discount.__init__` as the spec (§4.3) and the
repository's own tests intend it — identical to `Discount.init` but without
the unresolved `self._infill_rates(rates)` call, whose target is defined
nowhere in the package. Used to check the behaviour the spec ascribes to a
constructed `Discount`. -/
def make (base_year : Int) (rates? : Option YDict) (year_zero? : Option Int) :
    Except PyErr IndexSeries :=
  let rates := rates?.getD RATES
  IndexSeries.init base_year { entries := rates, ext := true } 1
    year_zero? none extendValues

/-- `Discount.rebase`: build a new `Discount` from the same base year and
rate table with a new `year_zero` — which invokes the failing
`Discount.__init__`. -/
def rebase (s : IndexSeries) (year_zero : Int) : Except PyErr IndexSeries :=
  init s.base_year (some s.rates.entries) (some year_zero)

end Discount

/-!
## GdpDeflator (`src/py_wlc/economics/gdp_deflator.py`)
-/

namespace GdpDeflator

/-- Forward loop of `GdpDeflator._extend_values`:
`for year_ in range(max_year, year):`
`self._values[year_ + 1] = self._values[year_] * fact` with
`fact = 1 + self._rates.get(year_, 0)`. Multiplication cannot raise. -/
def forwardLoop (s : IndexSeries) (cur : Int) : Nat → IndexSeries × Option PyErr
  | 0 => (s, none)
  | n + 1 =>
    let fact := 1 + s.rates.get cur 0
    match lookupD s.values cur with
    | none => (s, some .keyError)
    | some v =>
      forwardLoop
        { s with values := insertD s.values (cur + 1) (v * fact) }
        (cur + 1) n

/-- Backward loop of `GdpDeflator._extend_values`:
`for year_ in range(min_year - 1, year - 1, -1):`
`self._values[year_] = self._values[year_ + 1] / fact` with
`fact = 1 + self._rates.get(year_, 0)`. `cur` tracks `year_ + 1`; division
by a zero `fact` raises `ZeroDivisionError`, keeping earlier insertions. -/
def backwardLoop (s : IndexSeries) (cur : Int) : Nat → IndexSeries × Option PyErr
  | 0 => (s, none)
  | n + 1 =>
    let fact := 1 + s.rates.get (cur - 1) 0
    match lookupD s.values cur with
    | none => (s, some .keyError)
    | some v =>
      if fact = 0 then (s, some .zeroDivision)
      else
        backwardLoop
          { s with values := insertD s.values (cur - 1) (v / fact) }
          (cur - 1) n

/-- `GdpDeflator._extend_values`: extend backward below the smallest cached
relative year or forward above the largest one. -/
def extendValues (s : IndexSeries) (year : Int) : IndexSeries × Option PyErr :=
  match intMin? (s.values.map Prod.fst), intMax? (s.values.map Prod.fst) with
  | some mn, some mx =>
    if year < mn then backwardLoop s mn (mn - year).toNat
    else if year > mx then forwardLoop s mx (year - mx).toNat
    else (s, none)
  | _, _ => (s, some (.valueError "min() arg is an empty sequence"))

/-- `GdpDeflator.__getitem__` is the inherited `IndexSeries.__getitem__`
with the deflator extension policy. -/
def getItem (s : IndexSeries) (year : Int) : Except PyErr ℚ × IndexSeries :=
  IndexSeries.getItem extendValues s year

/-- `GdpDeflator.__init__`: an empty rates dict falls back to
`{base_year: 0.0}`, calendar-year keys are shifted to relative years, the
dict becomes an `ExtendedDict` when `extend` is true, and the inherited
constructor runs with `initial_value=100.0` and default `year_zero`. -/
def init (base_year : Int) (rates : YDict) (extend : Bool) :
    Except PyErr IndexSeries :=
  let rates := if rates.isEmpty then [(base_year, 0)] else rates
  let rates := rates.map (fun p => (p.1 - base_year, p.2))
  IndexSeries.init base_year { entries := rates, ext := extend } 100
    none none extendValues

/-- `GdpDeflator.conversion_factor`:
`self.__getitem__(year_to) / self.__getitem__(year_from)` with `year_to`
defaulting to the base year; Python evaluates the left operand first and
raises `ZeroDivisionError` when the divisor is zero. -/
def conversion_factor (s : IndexSeries) (year_from : Int)
    (year_to? : Option Int) : Except PyErr ℚ × IndexSeries :=
  let year_to := year_to?.getD s.base_year
  match getItem s year_to with
  | (.error e, s1) => (.error e, s1)
  | (.ok vt, s1) =>
    match getItem s1 year_from with
    | (.error e, s2) => (.error e, s2)
    | (.ok vf, s2) =>
      if vf = 0 then (.error .zeroDivision, s2) else (.ok (vt / vf), s2)

end GdpDeflator

/-!
## Concrete instances used by the scenario claims and witnesses
-/

/-- Fallback series used only to destructure `Except` results of
constructors that are separately proved to succeed. -/
def dummySeries : IndexSeries :=
  { base_year := 0, year_zero := 0, rates := { entries := [], ext := false },
    initial_rate := 0, final_rate := 0, values := [] }

/-- The `Discount(2010)` of the spec's concrete scenario, built by the
intended constructor (`Discount.make`). -/
def discount2010 : IndexSeries :=
  ((Discount.make 2010 none none).toOption).getD dummySeries

/-- The `GdpDeflator(2010, {2009: 0.03, 2010: 0.03, 2011: 0.03}, extend=False)`
of the spec's concrete scenario. -/
def gdp2010 : IndexSeries :=
  ((GdpDeflator.init 2010 [(2009, 3/100), (2010, 3/100), (2011, 3/100)]
    false).toOption).getD dummySeries

/-- The value of a successful lookup (0 for an exception). -/
def exVal1 : Except PyErr ℚ → ℚ
  | .ok v => v
  | .error _ => 0

/-- The value component of a lookup result (0 for an exception); used to
state concrete-value claims. -/
def exVal (r : Except PyErr ℚ × IndexSeries) : ℚ :=
  exVal1 r.1

/-- Whether a lookup result is a normal return. -/
def exOk (r : Except PyErr ℚ) : Bool :=
  match r with
  | .ok _ => true
  | .error _ => false

/-- Rebuild an `Except`-level equation from kernel-friendly projections
(structural equality on `ℚ` does not evaluate well, its numerator and
denominator do). -/
theorem eq_ok_of_parts (r : Except PyErr ℚ) (q : ℚ) (hok : exOk r = true)
    (hnum : (exVal1 r).num = q.num) (hden : (exVal1 r).den = q.den) :
    r = .ok q := by
  cases r with
  | ok v => exact congrArg Except.ok (Rat.ext hnum hden)
  | error e => simp [exOk] at hok

/-!
## Flag-bit helper lemmas for `Cost`
-/

theorem and_two_eq_mod_four_and (x : Nat) : x &&& 2 = x % 4 &&& 2 := by
  have h3 : x &&& 3 = x % 4 := by
    simpa using Nat.and_pow_two_sub_one_eq_mod x 2
  calc x &&& 2 = x &&& (3 &&& 2) := by rw [show (3 : Nat) &&& 2 = 2 from rfl]
    _ = (x &&& 3) &&& 2 := (Nat.and_assoc x 3 2).symm
    _ = x % 4 &&& 2 := by rw [h3]

theorem ge_eight_of_and_eight (B : Nat) (h8 : B &&& 8 ≠ 0) : 8 ≤ B := by
  by_contra hlt
  push_neg at hlt
  interval_cases B <;> exact h8 (by decide)

/-- Subtracting `REAL - NOMINAL = 4` from a flag word that has the `REAL`
bit set and the `NOMINAL` bit clear does not change the `MARKET_PRICE`
bit. -/
theorem sub_four_and_two (B : Nat) (h8 : B &&& 8 ≠ 0) (h4 : B &&& 4 = 0) :
    (B - 4) &&& 2 = B &&& 2 := by
  have hB8 : 8 ≤ B := ge_eight_of_and_eight B h8
  have h4' : B % 8 < 4 := by
    have e : B &&& 4 = B % 8 &&& 4 := by
      have h7 : B &&& 7 = B % 8 := by
        simpa using Nat.and_pow_two_sub_one_eq_mod B 3
      calc B &&& 4 = B &&& (7 &&& 4) := by rw [show (7 : Nat) &&& 4 = 4 from rfl]
        _ = (B &&& 7) &&& 4 := (Nat.and_assoc B 7 4).symm
        _ = B % 8 &&& 4 := by rw [h7]
    rw [e] at h4
    obtain ⟨r, hrlt, hre⟩ : ∃ r, r < 8 ∧ B % 8 = r :=
      ⟨B % 8, Nat.mod_lt _ (by norm_num), rfl⟩
    rw [hre] at h4 ⊢
    interval_cases r <;> first | decide | exact absurd h4 (by decide)
  have hmod : (B - 4) % 4 = B % 4 := by omega
  rw [and_two_eq_mod_four_and (B - 4), and_two_eq_mod_four_and B, hmod]

theorem validate_type_none_iff (B : Nat) : Cost.validate_type B = none ↔
    ¬(B &&& 2 ≠ 0 ∧ B &&& 1 ≠ 0) ∧ ¬(B &&& 4 ≠ 0 ∧ B &&& 8 ≠ 0) ∧
    ¬(B &&& 4 ≠ 0 ∧ B &&& 16 ≠ 0) ∧ ¬(B &&& 1 ≠ 0 ∧ B &&& 16 ≠ 0) := by
  unfold Cost.validate_type Cost.MARKET_PRICE Cost.FACTOR_COST Cost.NOMINAL
    Cost.REAL Cost.PRESENT_VALUE
  split_ifs <;> simp_all

/-!
## C2: Cost construction/asType round trip
-/

/-- C2 (amended): for every valid basis flag combination `B`, value, year,
captured discount and deflator values and adjustment factor — provided the
captured deflator value is nonzero, the adjustment factor is nonzero when
`B` involves `PRESENT_VALUE` or `MARKET_PRICE`, and the captured discount
value is nonzero when `B` involves `PRESENT_VALUE` — constructing
`Cost(v, B, ...)` succeeds and `as_type(B)` returns exactly `v` (the
normalization divisions are exactly inverted by the `as_type`
multiplications). -/
theorem cost_roundtrip (v dv gv a : ℚ) (y : Int) (B : Nat)
    (hB : Cost.validate_type B = none) (hg : gv ≠ 0)
    (ha : B &&& 16 ≠ 0 ∨ B &&& 2 ≠ 0 → a ≠ 0)
    (hd : B &&& 16 ≠ 0 → dv ≠ 0) :
    ∃ c, Cost.init v B y dv gv a = .ok c ∧ c.as_type B = .ok v := by
  have hB' := (validate_type_none_iff B).mp hB
  have hdefl : (100 : ℚ) / gv ≠ 0 := div_ne_zero (by norm_num) hg
  by_cases h16 : B &&& 16 ≠ 0
  · have hdv := hd h16
    have ha' := ha (Or.inl h16)
    refine ⟨⟨v / dv / (100 / gv) / a, y, dv, 100 / gv, a⟩, ?_, ?_⟩
    · simp only [Cost.init, Cost.PRESENT_VALUE, Cost.MARKET_PRICE, Cost.REAL,
        Cost.NOMINAL, hB, if_neg hg, if_pos h16, if_neg hdv, if_neg hdefl,
        if_neg ha', show ((2 : Nat) ||| 8) &&& 8 = 8 from rfl,
        show ((2 : Nat) ||| 8) - 4 = 6 from rfl,
        show (6 : Nat) &&& 2 = 2 from rfl]
      norm_num
      exact fun h => absurd h (by decide)
    · simp only [Cost.as_type, Cost.PRESENT_VALUE, hB, if_pos h16,
        Cost.present_value]
      congr 1
      field_simp
      ring
  · by_cases h8 : B &&& 8 ≠ 0
    · have h4 : B &&& 4 = 0 := by
        by_contra h4
        exact hB'.2.1 ⟨h4, h8⟩
      have hmp : (B - (8 - 4)) &&& 2 = B &&& 2 := by
        simpa using sub_four_and_two B h8 h4
      by_cases h2 : B &&& 2 ≠ 0
      · have ha' := ha (Or.inr h2)
        refine ⟨⟨v / (100 / gv) / a, y, dv, 100 / gv, a⟩, ?_, ?_⟩
        · simp only [Cost.init, Cost.PRESENT_VALUE, Cost.MARKET_PRICE,
            Cost.REAL, Cost.NOMINAL, hB, if_neg hg, if_neg h16, if_pos h8,
            if_neg hdefl, hmp, if_pos h2, if_neg ha']
        · simp only [Cost.as_type, Cost.PRESENT_VALUE, Cost.MARKET_PRICE,
            Cost.REAL, hB, if_neg h16, if_pos h8, if_pos h2]
          congr 1
          field_simp
          ring
      · refine ⟨⟨v / (100 / gv), y, dv, 100 / gv, a⟩, ?_, ?_⟩
        · simp only [Cost.init, Cost.PRESENT_VALUE, Cost.MARKET_PRICE,
            Cost.REAL, Cost.NOMINAL, hB, if_neg hg, if_neg h16, if_pos h8,
            if_neg hdefl, hmp, if_neg h2]
        · simp only [Cost.as_type, Cost.PRESENT_VALUE, Cost.MARKET_PRICE,
            Cost.REAL, hB, if_neg h16, if_pos h8, if_neg h2]
          congr 1
          field_simp
    · by_cases h2 : B &&& 2 ≠ 0
      · have ha' := ha (Or.inr h2)
        refine ⟨⟨v / a, y, dv, 100 / gv, a⟩, ?_, ?_⟩
        · simp only [Cost.init, Cost.PRESENT_VALUE, Cost.MARKET_PRICE,
            Cost.REAL, Cost.NOMINAL, hB, if_neg hg, if_neg h16, if_neg h8,
            if_pos h2, if_neg ha']
        · simp only [Cost.as_type, Cost.PRESENT_VALUE, Cost.MARKET_PRICE,
            Cost.REAL, hB, if_neg h16, if_neg h8, if_pos h2]
          congr 1
          field_simp
      · refine ⟨⟨v, y, dv, 100 / gv, a⟩, ?_, ?_⟩
        · simp only [Cost.init, Cost.PRESENT_VALUE, Cost.MARKET_PRICE,
            Cost.REAL, Cost.NOMINAL, hB, if_neg hg, if_neg h16, if_neg h8,
            if_neg h2]
        · simp only [Cost.as_type, Cost.PRESENT_VALUE, Cost.MARKET_PRICE,
            Cost.REAL, hB, if_neg h16, if_neg h8, if_neg h2]

/-- Shared fact: `Discount.make 2010 ...` (the intended constructor)
succeeds and produces `discount2010`. -/
theorem discount2010_make : Discount.make 2010 none none = .ok discount2010 := by
  have hok : (Discount.make 2010 none none).isOk = true := by
    with_unfolding_all decide
  unfold discount2010
  cases hmk : Discount.make 2010 none none with
  | ok s => simp [Except.toOption]
  | error e => rw [hmk] at hok; simp [Except.isOk, Except.toBool] at hok

/-- Shared fact: the C3 deflator construction succeeds and produces
`gdp2010`. -/
theorem gdp2010_init :
    GdpDeflator.init 2010 [(2009, 3/100), (2010, 3/100), (2011, 3/100)]
      false = .ok gdp2010 := by
  have hok : (GdpDeflator.init 2010
      [(2009, 3/100), (2010, 3/100), (2011, 3/100)] false).isOk = true := by
    with_unfolding_all decide
  unfold gdp2010
  cases hmk : GdpDeflator.init 2010
      [(2009, 3/100), (2010, 3/100), (2011, 3/100)] false with
  | ok s => simp [Except.toOption]
  | error e => rw [hmk] at hok; simp [Except.isOk, Except.toBool] at hok

/-- Decidable equality of `Except` results, used to state concrete-value
claims by `decide`. -/
instance exceptDecEq {e a : Type} [DecidableEq e] [DecidableEq a] :
    DecidableEq (Except e a)
  | .error x, .error y => decidable_of_iff (x = y) (by simp)
  | .error _, .ok _ => isFalse (by simp)
  | .ok _, .error _ => isFalse (by simp)
  | .ok x, .ok y => decidable_of_iff (x = y) (by simp)

/-- C2 (amended): for every valid basis flag combination `B` and every
value, year, captured discount/deflator values and adjustment factor whose
divisions are defined (nonzero deflator value; nonzero adjustment factor
when `B` involves `PRESENT_VALUE` or `MARKET_PRICE`; nonzero discount value
when `B` involves `PRESENT_VALUE`), construction succeeds and
`as_type(B)` returns exactly `v`: the normalization divisions at
construction are exactly inverted by the `as_type` multiplications. -/
theorem c2_cost_roundtrip (v dv gv a : ℚ) (y : Int) (B : Nat)
    (hB : Cost.validate_type B = none) (hg : gv ≠ 0)
    (ha : B &&& 16 ≠ 0 ∨ B &&& 2 ≠ 0 → a ≠ 0)
    (hd : B &&& 16 ≠ 0 → dv ≠ 0) :
    (Cost.init v B y dv gv a).map (fun c => c.as_type B) = .ok (.ok v) := by
  obtain ⟨c, hc, hast⟩ := cost_roundtrip v dv gv a y B hB hg ha hd
  rw [hc]
  simp [Except.map, hast]

/-- C2 witness: a concrete `REAL | MARKET_PRICE` round trip. -/
theorem c2_cost_roundtrip_witness :
    (Cost.init 7 10 2011 2 50 3).map (fun c => c.as_type 10) = .ok (.ok 7) :=
  c2_cost_roundtrip 7 2 50 3 2011 10 (by decide) (by norm_num)
    (fun _ => by norm_num) (fun h => absurd h (by decide))

/-- C2 counterexample: with adjustment factor `0.0` (a value the claim
quantifies over) and basis `MARKET_PRICE | NOMINAL`, construction raises
`ZeroDivisionError`, so `as_type` can never return the value: the claimed
round trip fails. -/
theorem c2_zero_adjustment_counterexample :
    Cost.init 100 6 2010 1 100 0 = .error .zeroDivision ∧
    (Cost.init 100 6 2010 1 100 0).map (fun c => c.as_type 6) ≠
      .ok (.ok 100) := by
  constructor
  · with_unfolding_all decide
  · with_unfolding_all decide

/-- C7: for every value, year, captured factors and any flag word
containing both `MARKET_PRICE` and `FACTOR_COST`, construction fails with
the basis-validation `ValueError` (the spec's `InvalidBasisError`), and
`as_type` with the same flags fails identically on every `Cost`, never
silently coercing. -/
theorem c7_invalid_basis (v : ℚ) (y : Int) (dv gv a : ℚ) (B : Nat)
    (hm : B &&& Cost.MARKET_PRICE ≠ 0) (hf : B &&& Cost.FACTOR_COST ≠ 0) :
    Cost.init v B y dv gv a =
      .error (.valueError "Cost cannot be market price and factor cost.") ∧
    ∀ c : Cost, c.as_type B =
      .error (.valueError "Cost cannot be market price and factor cost.") := by
  have hv : Cost.validate_type B =
      some (.valueError "Cost cannot be market price and factor cost.") := by
    unfold Cost.validate_type
    rw [if_pos ⟨hm, hf⟩]
  constructor
  · unfold Cost.init
    rw [hv]
  · intro c
    unfold Cost.as_type
    rw [hv]

/-- C7 witness at `B = MARKET_PRICE | FACTOR_COST = 3`. -/
theorem c7_invalid_basis_witness :
    Cost.init 100 3 2010 1 100 1 =
      .error (.valueError "Cost cannot be market price and factor cost.") ∧
    Cost.as_type ⟨100, 2010, 1, 1, 1⟩ 3 =
      .error (.valueError "Cost cannot be market price and factor cost.") := by
  have h := c7_invalid_basis 100 2010 1 100 1 3 (by decide) (by decide)
  exact ⟨h.1, h.2 ⟨100, 2010, 1, 1, 1⟩⟩

/-- C8: ordering two `Cost` objects whose discount, deflation or adjustment
factors differ fails with `TypeError` (the spec's `ComparisonError`) for
all four ordering operators, instead of returning a boolean. -/
theorem c8_incomparable_costs (a b : Cost)
    (h : a.discount_factor ≠ b.discount_factor ∨
         a.deflation_factor ≠ b.deflation_factor ∨
         a.adjustment_factor ≠ b.adjustment_factor) :
    Cost.pyLess a b = .error .typeError ∧
    Cost.pyGreater a b = .error .typeError ∧
    Cost.pyLessEq a b = .error .typeError ∧
    Cost.pyGreaterEq a b = .error .typeError := by
  have hab : Cost.lt a b = none := by
    unfold Cost.lt
    rw [if_neg]
    rintro ⟨-, h1, h2, h3⟩
    rcases h with h | h | h
    · exact h h1
    · exact h h2
    · exact h h3
  have hba : Cost.lt b a = none := by
    unfold Cost.lt
    rw [if_neg]
    rintro ⟨-, h1, h2, h3⟩
    rcases h with h | h | h
    · exact h h1.symm
    · exact h h2.symm
    · exact h h3.symm
  refine ⟨?_, ?_, ?_, ?_⟩ <;>
    simp [Cost.pyLess, Cost.pyGreater, Cost.pyLessEq, Cost.pyGreaterEq,
      Cost.le, Cost.ge, Cost.gt, hab, hba]

/-- C8 witness: two concrete costs differing only in adjustment factor. -/
theorem c8_incomparable_costs_witness :
    Cost.pyLess ⟨100, 2010, 1, 1, 1⟩ ⟨100, 2010, 1, 1, 2⟩ =
      .error .typeError ∧
    Cost.pyGreaterEq ⟨100, 2010, 1, 1, 1⟩ ⟨100, 2010, 1, 1, 2⟩ =
      .error .typeError := by
  have h := c8_incomparable_costs ⟨100, 2010, 1, 1, 1⟩ ⟨100, 2010, 1, 1, 2⟩
    (Or.inr (Or.inr (by norm_num)))
  exact ⟨h.1, h.2.2.2⟩

/-- Shared fact: `Discount.__init__` always raises `AttributeError` for
the missing `_infill_rates` method. -/
theorem discount_init_attr_error (base_year : Int)
    (rates? : Option YDict) (year_zero? : Option Int) :
    Discount.init base_year rates? year_zero? =
      .error (.attributeError
        "'Discount' object has no attribute '_infill_rates'") := by
  unfold Discount.init
  rw [if_neg (by decide)]

/-- C9: for every base year, rates mapping (including the default) and
`year_zero`, `Discount.__init__` raises `AttributeError` at its first
statement `self._infill_rates(rates)` — the method is defined nowhere —
before any series is built; consequently `rebase`, which constructs a new
`Discount`, fails the same way for every state. -/
theorem c9_discount_init_attribute_error (base_year : Int)
    (rates? : Option YDict) (year_zero? : Option Int) :
    Discount.init base_year rates? year_zero? =
      .error (.attributeError
        "'Discount' object has no attribute '_infill_rates'") ∧
    ∀ s : IndexSeries, ∀ yz : Int, Discount.rebase s yz =
      .error (.attributeError
        "'Discount' object has no attribute '_infill_rates'") := by
  refine ⟨discount_init_attr_error base_year rates? year_zero?, ?_⟩
  intro s yz
  unfold Discount.rebase
  exact discount_init_attr_error s.base_year (some s.rates.entries) (some yz)

/-- C10: for both growth-series classes, `get(year, default)` never returns
the stored value: when the underlying `__getitem__` succeeds with some
value `v`, `get` discards it and falls through to Python `None`
(`Option.none`, distinct from `some v`); it returns the supplied `default`
exactly when the lookup raises `KeyError`. -/
theorem c10_get_discards_value (s : IndexSeries) (y : Int) (d : Option ℚ) :
    (∀ v, (Discount.getItem s y).1 = .ok v →
      (IndexSeries.get Discount.getItem s y d).1 = .ok none) ∧
    ((Discount.getItem s y).1 = .error .keyError →
      (IndexSeries.get Discount.getItem s y d).1 = .ok d) ∧
    (∀ v, (GdpDeflator.getItem s y).1 = .ok v →
      (IndexSeries.get GdpDeflator.getItem s y d).1 = .ok none) ∧
    ((GdpDeflator.getItem s y).1 = .error .keyError →
      (IndexSeries.get GdpDeflator.getItem s y d).1 = .ok d) := by
  refine ⟨?_, ?_, ?_, ?_⟩
  · intro v hv
    unfold IndexSeries.get
    rcases hg : Discount.getItem s y with ⟨r, s'⟩
    rw [hg] at hv
    simp only at hv
    rw [hv]
  · intro hv
    unfold IndexSeries.get
    rcases hg : Discount.getItem s y with ⟨r, s'⟩
    rw [hg] at hv
    simp only at hv
    rw [hv]
  · intro v hv
    unfold IndexSeries.get
    rcases hg : GdpDeflator.getItem s y with ⟨r, s'⟩
    rw [hg] at hv
    simp only at hv
    rw [hv]
  · intro hv
    unfold IndexSeries.get
    rcases hg : GdpDeflator.getItem s y with ⟨r, s'⟩
    rw [hg] at hv
    simp only at hv
    rw [hv]

/-- C10 witness: a successful deflator lookup makes `get` return `None`
rather than the stored `106.09`. -/
theorem c10_get_discards_value_witness :
    (IndexSeries.get GdpDeflator.getItem gdp2010 2012 (some 5)).1 =
      .ok none :=
  (c10_get_discards_value gdp2010 2012 (some 5)).2.2.1 (10609/100)
    (eq_ok_of_parts _ _ (by with_unfolding_all decide)
      (by with_unfolding_all decide) (by with_unfolding_all decide))

/-- C1: the code cannot deliver the claimed factors — `Discount(2010)`
itself raises `AttributeError` (the `_infill_rates` slip, cf. the C9
analysis), contradicting the repository's own tests; with that one slip
removed (`Discount.make`), the claimed factors 1.0000, 0.7089, 0.5026,
0.2651 and 0.0274 do all hold within the stated tolerance of 1e-4. -/
theorem c1_discount2010_values :
    Discount.init 2010 none none =
      .error (.attributeError
        "'Discount' object has no attribute '_infill_rates'") ∧
    (Discount.make 2010 none none).isOk = true ∧
    Discount.make 2010 none none = .ok discount2010 ∧
    |exVal (Discount.getItem discount2010 2005) - 1| < 1/10000 ∧
    |exVal (Discount.getItem discount2010 2020) - 7089/10000| < 1/10000 ∧
    |exVal (Discount.getItem discount2010 2030) - 5026/10000| < 1/10000 ∧
    |exVal (Discount.getItem discount2010 2050) - 2651/10000| < 1/10000 ∧
    |exVal (Discount.getItem discount2010 2135) - 274/10000| < 1/10000 := by
  refine ⟨discount_init_attr_error 2010 none none,
    by rw [discount2010_make]; rfl, discount2010_make, ?_, ?_, ?_, ?_, ?_⟩
  all_goals with_unfolding_all decide

/-- C3: `GdpDeflator(2010, {2009: 0.03, 2010: 0.03, 2011: 0.03},
extend=False)` is constructed successfully and yields index values
97.0874 (2008), 100.0 (2010), 103.0 (2011), 106.09 (2012) and 106.09
(2013), each within the tests' tolerance of 1e-4 — the index stays flat
beyond the explicit rates because the plain dict's `get` falls back to the
implicit rate `0.0`. -/
theorem c3_gdp2010_values :
    (GdpDeflator.init 2010 [(2009, 3/100), (2010, 3/100), (2011, 3/100)]
      false).isOk = true ∧
    GdpDeflator.init 2010 [(2009, 3/100), (2010, 3/100), (2011, 3/100)]
      false = .ok gdp2010 ∧
    |exVal (GdpDeflator.getItem gdp2010 2008) - 970874/10000| < 1/10000 ∧
    |exVal (GdpDeflator.getItem gdp2010 2010) - 100| < 1/10000 ∧
    |exVal (GdpDeflator.getItem gdp2010 2011) - 103| < 1/10000 ∧
    |exVal (GdpDeflator.getItem gdp2010 2012) - 10609/100| < 1/10000 ∧
    |exVal (GdpDeflator.getItem gdp2010 2013) - 10609/100| < 1/10000 := by
  refine ⟨by rw [gdp2010_init]; rfl, gdp2010_init, ?_, ?_, ?_, ?_, ?_⟩
  all_goals with_unfolding_all decide

namespace IndexSeries

theorem getItem_cached (extendV : ExtendFn) (s : IndexSeries) (year : Int)
    (q : ℚ) (hc : lookupD s.values (year - s.year_zero) = some q) :
    getItem extendV s year = (.ok q, s) := by
  unfold getItem
  rw [if_pos (by rw [hc]; rfl)]
  show (match lookupD s.values (year - s.year_zero) with
        | some v => ((Except.ok v : Except PyErr ℚ), s)
        | none => ((Except.error PyErr.keyError : Except PyErr ℚ), s)) = _
  rw [hc]

theorem getItem_extend_ok (extendV : ExtendFn) (s s' : IndexSeries)
    (year : Int) (q : ℚ)
    (hin : (lookupD s.values (year - s.year_zero)).isSome = false)
    (hev : extendV s (year - s.year_zero) = (s', none))
    (hc : lookupD s'.values (year - s.year_zero) = some q) :
    getItem extendV s year = (.ok q, s') := by
  unfold getItem
  rw [if_neg (by rw [hin]; exact Bool.false_ne_true), hev]
  show (match lookupD s'.values (year - s.year_zero) with
        | some v => ((Except.ok v : Except PyErr ℚ), s')
        | none => ((Except.error PyErr.keyError : Except PyErr ℚ), s')) = _
  rw [hc]

theorem getItem_extend_miss (extendV : ExtendFn) (s s' : IndexSeries)
    (year : Int)
    (hin : (lookupD s.values (year - s.year_zero)).isSome = false)
    (hev : extendV s (year - s.year_zero) = (s', none))
    (hc : lookupD s'.values (year - s.year_zero) = none) :
    getItem extendV s year = (.error .keyError, s') := by
  unfold getItem
  rw [if_neg (by rw [hin]; exact Bool.false_ne_true), hev]
  show (match lookupD s'.values (year - s.year_zero) with
        | some v => ((Except.ok v : Except PyErr ℚ), s')
        | none => ((Except.error PyErr.keyError : Except PyErr ℚ), s')) = _
  rw [hc]

theorem getItem_extend_error (extendV : ExtendFn) (s s' : IndexSeries)
    (year : Int) (e : PyErr)
    (hin : (lookupD s.values (year - s.year_zero)).isSome = false)
    (hev : extendV s (year - s.year_zero) = (s', some e)) :
    getItem extendV s year = (.error e, s') := by
  unfold getItem
  rw [if_neg (by rw [hin]; exact Bool.false_ne_true), hev]

end IndexSeries

/-!
## Canonical values and the cache invariant for `GdpDeflator`

The cache of a deflator always covers a contiguous interval of relative
years containing 0, and every cached value equals the canonical value
determined by the rate table alone. `canonE` is the canonical *result* of
a lookup: backward extension divides and can raise `ZeroDivisionError`
when a rate is exactly -1; forward extension only multiplies. Both are
functions of the rate table only, which is what makes lookups
order-independent.
-/

namespace GdpDeflator

/-- The factor `1 + self._rates.get(year_, 0)` used by both extension
loops. -/
def gfact (rd : RateDict) (k : Int) : ℚ := 1 + rd.get k 0

/-- Canonical value at relative year `n ≥ 0`. -/
def canonF (rd : RateDict) : Nat → ℚ
  | 0 => 100
  | n + 1 => canonF rd n * gfact rd (n : Int)

/-- Canonical value at relative year `-n ≤ 0`. -/
def canonB (rd : RateDict) : Nat → ℚ
  | 0 => 100
  | n + 1 => canonB rd n / gfact rd (-(n + 1 : Nat) : Int)

/-- Canonical value at any relative year. -/
def canonVal (rd : RateDict) (z : Int) : ℚ :=
  if 0 ≤ z then canonF rd z.toNat else canonB rd (-z).toNat

/-- Whether backward extension down to relative year `z` avoids dividing
by zero. -/
def backOkB (rd : RateDict) (z : Int) : Bool :=
  (List.range (-z).toNat).all (fun i => gfact rd (z + (i : Int)) != 0)

/-- Canonical lookup result at relative year `z`. -/
def canonE (rd : RateDict) (z : Int) : Except PyErr ℚ :=
  if backOkB rd z then .ok (canonVal rd z) else .error .zeroDivision

theorem canonVal_zero (rd : RateDict) : canonVal rd 0 = 100 := by
  simp [canonVal, canonF]

theorem canonVal_succ (rd : RateDict) (z : Int) (hz : 0 ≤ z) :
    canonVal rd (z + 1) = canonVal rd z * gfact rd z := by
  unfold canonVal
  rw [if_pos (by omega), if_pos hz]
  have h1 : (z + 1).toNat = z.toNat + 1 := by omega
  rw [h1]
  show canonF rd z.toNat * gfact rd (z.toNat : Int) = _
  rw [Int.toNat_of_nonneg hz]

theorem canonVal_pred (rd : RateDict) (z : Int) (hz : z ≤ 0) :
    canonVal rd (z - 1) = canonVal rd z / gfact rd (z - 1) := by
  unfold canonVal
  rw [if_neg (by omega)]
  have h1 : (-(z - 1)).toNat = (-z).toNat + 1 := by omega
  rw [h1]
  show canonB rd (-z).toNat / gfact rd (-((-z).toNat + 1 : Nat) : Int) = _
  have h2 : (-((-z).toNat + 1 : Nat) : Int) = z - 1 := by
    push_cast
    omega
  rw [h2]
  rcases lt_or_eq_of_le hz with h | h
  · rw [if_neg (by omega)]
  · subst h
    rw [if_pos le_rfl]
    show canonB rd 0 / _ = canonF rd 0 / _
    rfl

/-- `backOkB` as a statement about all backward factors. -/
theorem backOkB_iff (rd : RateDict) (z : Int) :
    backOkB rd z = true ↔ ∀ k : Int, z ≤ k → k < 0 → gfact rd k ≠ 0 := by
  unfold backOkB
  rw [List.all_eq_true]
  constructor
  · intro h k hzk hk0
    have hi : (k - z).toNat ∈ List.range (-z).toNat := by
      rw [List.mem_range]
      omega
    have := h _ hi
    rw [bne_iff_ne] at this
    have he : z + ((k - z).toNat : Int) = k := by omega
    rwa [he] at this
  · intro h i hi
    rw [List.mem_range] at hi
    rw [bne_iff_ne]
    exact h (z + (i : Int)) (by omega) (by omega)

theorem backOkB_of_nonneg (rd : RateDict) (z : Int) (hz : 0 ≤ z) :
    backOkB rd z = true := by
  rw [backOkB_iff]
  intro k hk h0
  omega

end GdpDeflator

theorem intMin?_eq_none_iff (l : List Int) : intMin? l = none ↔ l = [] := by
  cases l <;> simp [intMin?]

theorem intMax?_eq_none_iff (l : List Int) : intMax? l = none ↔ l = [] := by
  cases l <;> simp [intMax?]

theorem lookupD_mem (l : YDict) (k : Int) (v : ℚ) (h : lookupD l k = some v) :
    (k, v) ∈ l := by
  unfold lookupD at h
  rcases hf : l.find? (fun p => p.1 == k) with _ | q
  · rw [hf] at h
    simp at h
  · rw [hf] at h
    have hq := List.find?_some hf
    have hm := List.mem_of_find?_eq_some hf
    rw [beq_iff_eq] at hq
    rcases q with ⟨qk, qv⟩
    have h2 : qv = v := by simpa using h
    have h1 : qk = k := by simpa using hq
    subst h1
    subst h2
    exact hm

/-- Fields other than the value cache are untouched by lookups and
extensions. -/
def sameShape (s t : IndexSeries) : Prop :=
  t.base_year = s.base_year ∧ t.year_zero = s.year_zero ∧
  t.rates = s.rates ∧ t.initial_rate = s.initial_rate ∧
  t.final_rate = s.final_rate

theorem sameShape_refl (s : IndexSeries) : sameShape s s :=
  ⟨rfl, rfl, rfl, rfl, rfl⟩

theorem sameShape_trans {s t u : IndexSeries} (h1 : sameShape s t)
    (h2 : sameShape t u) : sameShape s u := by
  obtain ⟨a1, b1, c1, d1, e1⟩ := h1
  obtain ⟨a2, b2, c2, d2, e2⟩ := h2
  exact ⟨a2.trans a1, b2.trans b1, c2.trans c1, d2.trans d1, e2.trans e1⟩

namespace GdpDeflator

/-- The deflator cache invariant: the cache covers exactly the contiguous
interval `[lo, hi]` of relative years (containing 0), every cached entry
holds the canonical value, and no backward factor inside the covered
region is zero (extension never got to divide by zero). -/
structure Inv (s : IndexSeries) (lo hi : Int) : Prop where
  lo_le : lo ≤ 0
  hi_ge : 0 ≤ hi
  cached : ∀ z : Int, lo ≤ z → z ≤ hi →
    lookupD s.values z = some (canonVal s.rates z)
  inRange : ∀ z : Int, (lookupD s.values z).isSome = true → lo ≤ z ∧ z ≤ hi
  minEq : intMin? (s.values.map Prod.fst) = some lo
  maxEq : intMax? (s.values.map Prod.fst) = some hi
  backSafe : ∀ k : Int, lo ≤ k → k < 0 → gfact s.rates k ≠ 0

/-- Unfolding equation for one forward step. -/
theorem forwardLoop_succ (s : IndexSeries) (cur : Int) (n : Nat) (v : ℚ)
    (hv : lookupD s.values cur = some v) :
    forwardLoop s cur (n + 1) =
      forwardLoop
        { s with values := insertD s.values (cur + 1) (v * (1 + s.rates.get cur 0)) }
        (cur + 1) n := by
  conv_lhs => rw [forwardLoop]
  rw [hv]

/-- Pushing the canonical value for `hi + 1` onto an invariant cache
preserves the invariant. -/
theorem Inv.pushG {s : IndexSeries} {lo hi : Int} (h : Inv s lo hi) (w : ℚ)
    (hw : w = canonVal s.rates hi * (1 + s.rates.get hi 0)) :
    Inv { s with values := insertD s.values (hi + 1) w } lo (hi + 1) := by
  have hval : w = canonVal s.rates (hi + 1) := by
    rw [hw, canonVal_succ s.rates hi h.hi_ge]
    rfl
  refine ⟨h.lo_le, by have hb := h.hi_ge; omega, ?_, ?_, ?_, ?_, h.backSafe⟩
  · intro z hz1 hz2
    show lookupD (insertD s.values (hi + 1) w) z = _
    rw [lookupD_cons]
    by_cases hz : z = hi + 1
    · rw [if_pos hz, hz, hval]
    · rw [if_neg hz]
      exact h.cached z hz1 (by omega)
  · intro z hz
    show lo ≤ z ∧ z ≤ hi + 1
    rw [show ({ s with values := insertD s.values (hi + 1) w} :
        IndexSeries).values = insertD s.values (hi + 1) w from rfl,
      lookupD_cons] at hz
    by_cases hz' : z = hi + 1
    · have ha := h.lo_le
      have hb := h.hi_ge
      omega
    · rw [if_neg hz'] at hz
      have := h.inRange z hz
      omega
  · show intMin? ((hi + 1) :: s.values.map Prod.fst) = some lo
    rw [intMin?_cons, h.minEq]
    have hm : min (hi + 1) lo = lo := by
      have ha := h.lo_le
      have hb := h.hi_ge
      omega
    simp [hm]
  · show intMax? ((hi + 1) :: s.values.map Prod.fst) = some (hi + 1)
    rw [intMax?_cons, h.maxEq]
    have hm : max (hi + 1) hi = hi + 1 := by omega
    simp [hm]

theorem forwardLoop_spec (n : Nat) :
    ∀ s lo hi, Inv s lo hi →
    ∃ s', forwardLoop s hi n = (s', none) ∧ Inv s' lo (hi + n) ∧
      sameShape s s' ∧
      (∀ z v, lookupD s.values z = some v → lookupD s'.values z = some v) := by
  induction n with
  | zero =>
    intro s lo hi h
    refine ⟨s, rfl, ?_, sameShape_refl s, fun z v hv => hv⟩
    convert h using 2
    omega
  | succ n ih =>
    intro s lo hi h
    have hv : lookupD s.values hi = some (canonVal s.rates hi) :=
      h.cached hi (le_trans h.lo_le h.hi_ge) le_rfl
    rw [forwardLoop_succ s hi n _ hv]
    obtain ⟨s', hrun, hinv, hshape, hmono⟩ := ih _ lo (hi + 1) (h.pushG _ rfl)
    refine ⟨s', hrun, ?_, sameShape_trans (by exact ⟨rfl, rfl, rfl, rfl, rfl⟩)
      hshape, ?_⟩
    · have hcast : hi + ((n + 1 : Nat) : Int) = hi + 1 + (n : Int) := by
        push_cast
        omega
      rw [hcast]
      exact hinv
    · intro z v hzv
      apply hmono
      show lookupD (insertD s.values (hi + 1) _) z = some v
      rw [lookupD_cons]
      have hz := h.inRange z (by rw [hzv]; rfl)
      rw [if_neg (by omega)]
      exact hzv


/-- Unfolding equation for one backward step. -/
theorem backwardLoop_succ (s : IndexSeries) (cur : Int) (n : Nat) (v : ℚ)
    (hv : lookupD s.values cur = some v) :
    backwardLoop s cur (n + 1) =
      if 1 + s.rates.get (cur - 1) 0 = 0 then (s, some .zeroDivision)
      else backwardLoop
        { s with values := insertD s.values (cur - 1) (v / (1 + s.rates.get (cur - 1) 0)) }
        (cur - 1) n := by
  conv_lhs => rw [backwardLoop]
  rw [hv]

/-- Pushing the canonical value for `lo - 1` onto an invariant cache
preserves the invariant when the factor is nonzero. -/
theorem Inv.pushDown {s : IndexSeries} {lo hi : Int} (h : Inv s lo hi)
    (hfz : gfact s.rates (lo - 1) ≠ 0) (w : ℚ)
    (hw : w = canonVal s.rates lo / (1 + s.rates.get (lo - 1) 0)) :
    Inv { s with values := insertD s.values (lo - 1) w } (lo - 1) hi := by
  have hval : w = canonVal s.rates (lo - 1) := by
    rw [hw, canonVal_pred s.rates lo h.lo_le]
    rfl
  refine ⟨by have ha := h.lo_le; omega, h.hi_ge, ?_, ?_, ?_, ?_, ?_⟩
  · intro z hz1 hz2
    show lookupD (insertD s.values (lo - 1) w) z = _
    rw [lookupD_cons]
    by_cases hz : z = lo - 1
    · rw [if_pos hz, hz, hval]
    · rw [if_neg hz]
      exact h.cached z (by omega) hz2
  · intro z hz
    show lo - 1 ≤ z ∧ z ≤ hi
    rw [show ({ s with values := insertD s.values (lo - 1) w} :
        IndexSeries).values = insertD s.values (lo - 1) w from rfl,
      lookupD_cons] at hz
    by_cases hz' : z = lo - 1
    · have ha := h.lo_le
      have hb := h.hi_ge
      omega
    · rw [if_neg hz'] at hz
      have := h.inRange z hz
      omega
  · show intMin? ((lo - 1) :: s.values.map Prod.fst) = some (lo - 1)
    rw [intMin?_cons, h.minEq]
    have hm : min (lo - 1) lo = lo - 1 := by omega
    simp [hm]
  · show intMax? ((lo - 1) :: s.values.map Prod.fst) = some hi
    rw [intMax?_cons, h.maxEq]
    have hm : max (lo - 1) hi = hi := by
      have ha := h.lo_le
      have hb := h.hi_ge
      omega
    simp [hm]
  · intro k hk1 hk2
    show gfact s.rates k ≠ 0
    by_cases hk : k = lo - 1
    · rwa [hk]
    · exact h.backSafe k (by omega) hk2

theorem backwardLoop_spec (n : Nat) :
    ∀ s lo hi, Inv s lo hi →
      ((∀ i : Nat, i < n → gfact s.rates (lo - 1 - (i : Int)) ≠ 0) →
        ∃ s', backwardLoop s lo n = (s', none) ∧ Inv s' (lo - n) hi ∧
          sameShape s s' ∧
          (∀ z v, lookupD s.values z = some v →
            lookupD s'.values z = some v)) ∧
      ((¬ ∀ i : Nat, i < n → gfact s.rates (lo - 1 - (i : Int)) ≠ 0) →
        ∃ s' lo', backwardLoop s lo n = (s', some .zeroDivision) ∧
          Inv s' lo' hi ∧ lo' ≤ lo ∧ sameShape s s' ∧
          (∀ z v, lookupD s.values z = some v →
            lookupD s'.values z = some v)) := by
  induction n with
  | zero =>
    intro s lo hi h
    constructor
    · intro _
      refine ⟨s, rfl, ?_, sameShape_refl s, fun z v hv => hv⟩
      have hcast : lo - ((0 : Nat) : Int) = lo := by push_cast; omega
      rw [hcast]
      exact h
    · intro hbad
      exact absurd (fun i hi => absurd hi (by omega)) hbad
  | succ n ih =>
    intro s lo hi h
    have hv : lookupD s.values lo = some (canonVal s.rates lo) :=
      h.cached lo le_rfl (le_trans h.lo_le h.hi_ge)
    rw [backwardLoop_succ s lo n _ hv]
    by_cases hf : 1 + s.rates.get (lo - 1) 0 = 0
    · rw [if_pos hf]
      constructor
      · intro hall
        have h0 := hall 0 (by omega)
        have hidx : lo - 1 - ((0 : Nat) : Int) = lo - 1 := by push_cast; omega
        rw [hidx] at h0
        exact absurd hf h0
      · intro _
        exact ⟨s, lo, rfl, h, le_rfl, sameShape_refl s, fun z v hv => hv⟩
    · rw [if_neg hf]
      have hfz : gfact s.rates (lo - 1) ≠ 0 := hf
      have h1 := h.pushDown hfz _ rfl
      obtain ⟨ihT, ihF⟩ := ih _ (lo - 1) hi h1
      have hshape1 : sameShape s { s with values := insertD s.values (lo - 1) (canonVal s.rates lo / (1 + s.rates.get (lo - 1) 0)) } :=
        ⟨rfl, rfl, rfl, rfl, rfl⟩
      have hmono1 : ∀ z v, lookupD s.values z = some v →
          lookupD (insertD s.values (lo - 1)
            (canonVal s.rates lo / (1 + s.rates.get (lo - 1) 0))) z =
            some v := by
        intro z v hzv
        rw [lookupD_cons]
        have hz := h.inRange z (by rw [hzv]; rfl)
        rw [if_neg (by omega)]
        exact hzv
      constructor
      · intro hall
        have hall' : ∀ i : Nat, i < n →
            gfact s.rates (lo - 1 - 1 - (i : Int)) ≠ 0 := by
          intro i hin
          have := hall (i + 1) (by omega)
          have hidx : lo - 1 - ((i + 1 : Nat) : Int) = lo - 1 - 1 - (i : Int) := by
            push_cast
            omega
          rwa [hidx] at this
        obtain ⟨s', hrun, hinv, hshape, hmono⟩ := ihT hall'
        refine ⟨s', hrun, ?_, sameShape_trans hshape1 hshape,
          fun z v hzv => hmono z v (hmono1 z v hzv)⟩
        have hcast : lo - ((n + 1 : Nat) : Int) = lo - 1 - (n : Int) := by
          push_cast
          omega
        rw [hcast]
        exact hinv
      · intro hbad
        have hbad' : ¬ ∀ i : Nat, i < n →
            gfact s.rates (lo - 1 - 1 - (i : Int)) ≠ 0 := by
          intro hall'
          apply hbad
          intro i hin
          cases i with
          | zero =>
            have hidx : lo - 1 - ((0 : Nat) : Int) = lo - 1 := by
              push_cast
              omega
            rw [hidx]
            exact hfz
          | succ j =>
            have := hall' j (by omega)
            have hidx : lo - 1 - 1 - (j : Int) = lo - 1 - ((j + 1 : Nat) : Int) := by
              push_cast
              omega
            rwa [hidx] at this
        obtain ⟨s', lo', hrun, hinv, hlo, hshape, hmono⟩ := ihF hbad'
        exact ⟨s', lo', hrun, hinv, by omega, sameShape_trans hshape1 hshape,
          fun z v hzv => hmono z v (hmono1 z v hzv)⟩


theorem backOkB_of_backSafe (rd : RateDict) (z lo : Int) (hz : lo ≤ z)
    (hlo : lo ≤ 0)
    (hsafe : ∀ k : Int, lo ≤ k → k < 0 → gfact rd k ≠ 0) :
    backOkB rd z = true := by
  rw [backOkB_iff]
  intro k hk1 hk2
  exact hsafe k (by omega) hk2

/-- The central lemma: on any state satisfying the invariant,
`GdpDeflator.__getitem__` returns exactly the canonical result for the
relative year — a function of the rate table alone — and leaves a state
that again satisfies the invariant, with the cache only extended, never
overwritten. -/
theorem getItem_specG (s : IndexSeries) (lo hi : Int) (h : Inv s lo hi)
    (year : Int) :
    ∃ s' lo' hi',
      getItem s year = (canonE s.rates (year - s.year_zero), s') ∧
      Inv s' lo' hi' ∧ lo' ≤ lo ∧ hi ≤ hi' ∧ sameShape s s' ∧
      (∀ z v, lookupD s.values z = some v → lookupD s'.values z = some v) := by
  have hlh : lo ≤ hi := le_trans h.lo_le h.hi_ge
  by_cases hin : (lookupD s.values (year - s.year_zero)).isSome = true
  · -- cached: no extension, the cached value is canonical
    obtain ⟨hr1, hr2⟩ := h.inRange _ hin
    have hc := h.cached _ hr1 hr2
    have hok : backOkB s.rates (year - s.year_zero) = true :=
      backOkB_of_backSafe s.rates _ lo hr1 h.lo_le h.backSafe
    refine ⟨s, lo, hi, ?_, h, le_rfl, le_rfl, sameShape_refl s,
      fun z v hv => hv⟩
    rw [show getItem s year = IndexSeries.getItem extendValues s year
        from rfl,
      IndexSeries.getItem_cached extendValues s year _ hc]
    unfold canonE
    rw [if_pos hok]
  · -- not cached: the extension policy runs
    rw [Bool.not_eq_true] at hin
    have hout : year - s.year_zero < lo ∨ hi < year - s.year_zero := by
      by_contra hcon
      push_neg at hcon
      have := h.cached _ hcon.1 hcon.2
      rw [this] at hin
      simp at hin
    have hmn : intMin? (s.values.map Prod.fst) = some lo := h.minEq
    have hmx : intMax? (s.values.map Prod.fst) = some hi := h.maxEq
    rcases hout with hlt | hgt
    · -- backward extension
      have hev : extendValues s (year - s.year_zero) =
          backwardLoop s lo (lo - (year - s.year_zero)).toNat := by
        unfold extendValues
        rw [hmn, hmx]
        show (if year - s.year_zero < lo then
            backwardLoop s lo (lo - (year - s.year_zero)).toNat
          else if year - s.year_zero > hi then
            forwardLoop s hi (year - s.year_zero - hi).toNat
          else (s, none)) = _
        rw [if_pos hlt]
      obtain ⟨ihT, ihF⟩ :=
        backwardLoop_spec (lo - (year - s.year_zero)).toNat s lo hi h
      by_cases hall : ∀ i : Nat, i < (lo - (year - s.year_zero)).toNat →
          gfact s.rates (lo - 1 - (i : Int)) ≠ 0
      · obtain ⟨s', hrun, hinv, hshape, hmono⟩ := ihT hall
        have hlo' : lo - ((lo - (year - s.year_zero)).toNat : Int) =
            year - s.year_zero := by omega
        rw [hlo'] at hinv
        have hc := hinv.cached (year - s.year_zero) le_rfl (by omega)
        have hok : backOkB s.rates (year - s.year_zero) = true := by
          rw [backOkB_iff]
          intro k hk1 hk2
          by_cases hk : k < lo
          · have hik : (lo - 1 - k).toNat <
                (lo - (year - s.year_zero)).toNat := by omega
            have := hall _ hik
            have hidx : lo - 1 - (((lo - 1 - k).toNat : Nat) : Int) = k := by
              omega
            rwa [hidx] at this
          · exact h.backSafe k (by omega) hk2
        have hrates : s'.rates = s.rates := hshape.2.2.1
        rw [hrates] at hc
        refine ⟨s', year - s.year_zero, hi, ?_, hinv, by omega, le_rfl,
          hshape, hmono⟩
        rw [show getItem s year = IndexSeries.getItem extendValues s year
            from rfl,
          IndexSeries.getItem_extend_ok extendValues s s' year _ hin
            (by rw [hev, hrun]) hc]
        unfold canonE
        rw [if_pos hok]
      · obtain ⟨s', lo', hrun, hinv, hlo2, hshape, hmono⟩ := ihF hall
        have hbad : backOkB s.rates (year - s.year_zero) = false := by
          have hlo0 := h.lo_le
          push_neg at hall
          obtain ⟨i, hilt, hieq⟩ := hall
          by_contra hcon
          rw [Bool.not_eq_false, backOkB_iff] at hcon
          exact absurd (hcon (lo - 1 - (i : Int)) (by omega) (by omega))
            (by simpa using hieq)
        refine ⟨s', lo', hi, ?_, hinv, by omega, le_rfl, hshape, hmono⟩
        rw [show getItem s year = IndexSeries.getItem extendValues s year
            from rfl,
          IndexSeries.getItem_extend_error extendValues s s' year _ hin
            (by rw [hev, hrun])]
        unfold canonE
        rw [hbad]
        rfl
    · -- forward extension: total
      have hev : extendValues s (year - s.year_zero) =
          forwardLoop s hi ((year - s.year_zero) - hi).toNat := by
        unfold extendValues
        rw [hmn, hmx]
        show (if year - s.year_zero < lo then
            backwardLoop s lo (lo - (year - s.year_zero)).toNat
          else if year - s.year_zero > hi then
            forwardLoop s hi (year - s.year_zero - hi).toNat
          else (s, none)) = _
        rw [if_neg (by omega), if_pos hgt]
      obtain ⟨s', hrun, hinv, hshape, hmono⟩ :=
        forwardLoop_spec ((year - s.year_zero) - hi).toNat s lo hi h
      have hhi' : hi + (((year - s.year_zero) - hi).toNat : Int) =
          year - s.year_zero := by omega
      rw [hhi'] at hinv
      have hc := hinv.cached (year - s.year_zero) (by omega) le_rfl
      have hok : backOkB s.rates (year - s.year_zero) = true :=
        backOkB_of_nonneg s.rates _ (by have := h.hi_ge; omega)
      have hrates : s'.rates = s.rates := hshape.2.2.1
      rw [hrates] at hc
      refine ⟨s', lo, year - s.year_zero, ?_, hinv, le_rfl, by omega,
        hshape, hmono⟩
      rw [show getItem s year = IndexSeries.getItem extendValues s year
          from rfl,
        IndexSeries.getItem_extend_ok extendValues s s' year _ hin
          (by rw [hev, hrun]) hc]
      unfold canonE
      rw [if_pos hok]

end GdpDeflator

theorem infillLoop_ne_nil (n : Nat) :
    ∀ (orig acc : YDict) (r : ℚ) (c : Int), acc ≠ [] →
      IndexSeries.infillLoop orig acc r c n ≠ [] := by
  induction n with
  | zero =>
    intro orig acc r c h
    exact h
  | succ n ih =>
    intro orig acc r c h
    unfold IndexSeries.infillLoop
    cases hl : lookupD orig c with
    | none => exact ih orig _ r (c + 1) (by simp [insertD])
    | some q => exact ih orig acc q (c + 1) h

/-- What a successful `IndexSeries.__init__` guarantees: there is an
intermediate state `s0` (rates infilled, cache seeded with the initial
value) from which the subclass `_extend_values(0)` ran without raising and
produced the result. -/
theorem IndexSeries.init_ok (base_year : Int) (rates : RateDict) (iv : ℚ)
    (yz? : Option Int) (ir? : Option ℚ) (extendV : ExtendFn)
    (s : IndexSeries)
    (h : IndexSeries.init base_year rates iv yz? ir? extendV = .ok s) :
    ∃ s0 : IndexSeries,
      s0.base_year = base_year ∧ s0.year_zero = yz?.getD base_year ∧
      s0.values = [(base_year - yz?.getD base_year, iv)] ∧
      s0.rates.ext = rates.ext ∧ s0.rates.entries ≠ [] ∧
      extendV s0 0 = (s, none) := by
  unfold IndexSeries.init at h
  rcases hmn : intMin? (rates.entries.map Prod.fst) with _ | mn
  · rw [hmn] at h
    rcases hmx : intMax? (rates.entries.map Prod.fst) with _ | mx <;>
      rw [hmx] at h <;> exact absurd h (by simp)
  · rcases hmx : intMax? (rates.entries.map Prod.fst) with _ | mx
    · rw [hmn, hmx] at h
      exact absurd h (by simp)
    · rw [hmn, hmx] at h
      have hne : rates.entries ≠ [] := by
        intro hcon
        rw [hcon] at hmn
        simp [intMin?] at hmn
      have key : ∀ t : IndexSeries,
          (match extendV t 0 with
           | (s', none) => (Except.ok s' : Except PyErr IndexSeries)
           | (_, some e) => Except.error e) = Except.ok s →
          extendV t 0 = (s, none) := by
        intro t ht
        rcases hrun : extendV t 0 with ⟨s', e?⟩
        rw [hrun] at ht
        cases e? with
        | none =>
          have hs : s' = s := by injection ht
          rw [hs]
        | some e => exact absurd ht (by simp)
      refine ⟨_, ?_, ?_, ?_, ?_, ?_, key _ h⟩
      · rfl
      · rfl
      · rfl
      · rfl
      · exact infillLoop_ne_nil _ _ _ _ _ hne

namespace GdpDeflator

/-- A freshly constructed deflator satisfies the cache invariant with the
cache holding exactly relative year 0. -/
theorem init_inv (by_ : Int) (rates : YDict) (ext : Bool)
    (g : IndexSeries) (h : init by_ rates ext = .ok g) :
    Inv g 0 0 ∧ g.year_zero = by_ ∧ g.base_year = by_ ∧
      g.rates.entries ≠ [] := by
  unfold init at h
  obtain ⟨s0, hby, hyz, hvals, hextf, hne, hrun⟩ :=
    IndexSeries.init_ok _ _ _ _ _ _ _ h
  rw [Option.getD_none] at hyz
  have hv0 : s0.values = [((0 : Int), (100 : ℚ))] := by
    rw [hvals]
    simp
  have hrun' : extendValues s0 0 = (s0, none) := by
    unfold extendValues
    rw [hv0]
    show (match intMin? [(0 : Int)], intMax? [(0 : Int)] with
          | some mn, some mx =>
            if (0 : Int) < mn then backwardLoop s0 mn (mn - 0).toNat
            else if (0 : Int) > mx then forwardLoop s0 mx (0 - mx).toNat
            else (s0, none)
          | _, _ =>
            (s0, some (.valueError "min() arg is an empty sequence"))) = _
    norm_num [intMin?, intMax?]
  rw [hrun'] at hrun
  have hgs : g = s0 := by
    have := hrun
    injection this with h1 h2
    exact h1.symm
  subst hgs
  refine ⟨⟨le_rfl, le_rfl, ?_, ?_, ?_, ?_, ?_⟩, hyz, hby, hne⟩
  · intro z hz1 hz2
    have hz : z = 0 := le_antisymm hz2 hz1
    subst hz
    rw [hv0]
    show lookupD (insertD [] 0 100) 0 = _
    rw [lookupD_cons, if_pos rfl, canonVal_zero]
  · intro z hz
    rw [hv0] at hz
    have : lookupD (insertD [] 0 100) z = lookupD [((0:Int),(100:ℚ))] z := rfl
    rw [← this, lookupD_cons] at hz
    by_cases h0 : z = 0
    · omega
    · rw [if_neg h0] at hz
      simp [lookupD] at hz
  · rw [hv0]
    rfl
  · rw [hv0]
    rfl
  · intro k hk1 hk2
    omega

end GdpDeflator


/-!
## Canonical values and the cache invariant for `Discount`

A discount series extends only forward from `lo0 = base_year - year_zero`
(the relative year seeded with factor 1.0); years below `lo0` are never
cached and resolve to 1.0 through the `KeyError` handler. The canonical
result is again a function of the constructed parameters alone.
-/

/-- The constructed parameters of a series (everything except the value
cache), on which the canonical values depend. -/
structure DP where
  by_ : Int
  yz : Int
  rd : RateDict
  ir : ℚ
  fr : ℚ
  deriving DecidableEq

def IndexSeries.dp (s : IndexSeries) : DP :=
  ⟨s.base_year, s.year_zero, s.rates, s.initial_rate, s.final_rate⟩

theorem dp_congr {s t : IndexSeries} (h : sameShape s t) : t.dp = s.dp := by
  obtain ⟨h1, h2, h3, h4, h5⟩ := h
  unfold IndexSeries.dp
  rw [h1, h2, h3, h4, h5]

namespace Discount

/-- Total version of `Discount.rate` for a constructed series (the
`ValueError` branch on an empty table is unreachable). -/
def rateQ (p : DP) (year : Int) : ℚ :=
  if year < p.by_ - p.yz then 0
  else
    match p.rd.getItem? year with
    | some r => r
    | none =>
      match intMin? (p.rd.entries.map Prod.fst) with
      | none => 0
      | some mn => if year < mn then p.ir else p.fr

theorem rate_eq (s : IndexSeries) (year : Int)
    (hne : s.rates.entries ≠ []) :
    rate s year = .ok (rateQ s.dp year) := by
  unfold rate IndexSeries.rate rateQ IndexSeries.dp
  by_cases h1 : year < s.base_year - s.year_zero
  · rw [if_pos h1, if_pos h1]
  · rw [if_neg h1, if_neg h1]
    cases hgi : s.rates.getItem? year with
    | some r => rfl
    | none =>
      cases hmn : intMin? (s.rates.entries.map Prod.fst) with
      | none =>
        rw [intMin?_eq_none_iff] at hmn
        exact absurd (List.map_eq_nil_iff.mp hmn) hne
      | some mn => rfl

/-- The divisor `1.0 + self.rate(year)` of the forward recurrence. -/
def dfact (p : DP) (k : Int) : ℚ := 1 + rateQ p k

/-- Canonical factor at `lo0 + n`, by the forward recurrence from the
seeded 1.0. -/
def dcF (p : DP) : Nat → ℚ
  | 0 => 1
  | n + 1 => dcF p n / dfact p (p.by_ - p.yz + (n : Int) + 1)

/-- Canonical factor at relative year `z` (1 for `z ≤ lo0`). -/
def dcanonVal (p : DP) (z : Int) : ℚ := dcF p (z - (p.by_ - p.yz)).toNat

/-- Whether forward extension up to relative year `z` avoids a zero
divisor. -/
def dFwdOkB (p : DP) (z : Int) : Bool :=
  (List.range (z - (p.by_ - p.yz)).toNat).all
    (fun i => dfact p (p.by_ - p.yz + (i : Int) + 1) != 0)

/-- Canonical lookup result of `Discount.__getitem__` at relative year
`z`. -/
def dgetE (p : DP) (z : Int) : Except PyErr ℚ :=
  if dFwdOkB p z then .ok (dcanonVal p z) else .error .zeroDivision

theorem dcanonVal_le (p : DP) (z : Int) (hz : z ≤ p.by_ - p.yz) :
    dcanonVal p z = 1 := by
  unfold dcanonVal
  rw [show (z - (p.by_ - p.yz)).toNat = 0 by omega]
  rfl

theorem dcanonVal_succ (p : DP) (z : Int) (hz : p.by_ - p.yz ≤ z) :
    dcanonVal p (z + 1) = dcanonVal p z / dfact p (z + 1) := by
  unfold dcanonVal
  rw [show (z + 1 - (p.by_ - p.yz)).toNat = (z - (p.by_ - p.yz)).toNat + 1
    by omega]
  show dcF p _ / dfact p (p.by_ - p.yz + ((z - (p.by_ - p.yz)).toNat : Int) + 1) = _
  rw [show p.by_ - p.yz + ((z - (p.by_ - p.yz)).toNat : Int) + 1 = z + 1
    by omega]

theorem dFwdOkB_iff (p : DP) (z : Int) :
    dFwdOkB p z = true ↔
      ∀ k : Int, p.by_ - p.yz < k → k ≤ z → dfact p k ≠ 0 := by
  unfold dFwdOkB
  rw [List.all_eq_true]
  constructor
  · intro h k hk1 hk2
    have hi : (k - (p.by_ - p.yz) - 1).toNat ∈
        List.range (z - (p.by_ - p.yz)).toNat := by
      rw [List.mem_range]
      omega
    have := h _ hi
    rw [bne_iff_ne] at this
    have he : p.by_ - p.yz + (((k - (p.by_ - p.yz) - 1).toNat : Nat) : Int)
        + 1 = k := by omega
    rwa [he] at this
  · intro h i hi
    rw [List.mem_range] at hi
    rw [bne_iff_ne]
    exact h (p.by_ - p.yz + (i : Int) + 1) (by omega) (by omega)

theorem dFwdOkB_of_le (p : DP) (z : Int) (hz : z ≤ p.by_ - p.yz) :
    dFwdOkB p z = true := by
  rw [dFwdOkB_iff]
  intro k hk1 hk2
  omega

/-- The discount cache invariant: the cache covers exactly
`[lo0, hi]`, every entry holds the canonical factor, and no covered
forward divisor is zero. -/
structure DInv (s : IndexSeries) (hi : Int) : Prop where
  entries_ne : s.rates.entries ≠ []
  lo_le : s.base_year - s.year_zero ≤ hi
  cached : ∀ z : Int, s.base_year - s.year_zero ≤ z → z ≤ hi →
    lookupD s.values z = some (dcanonVal s.dp z)
  inRange : ∀ z : Int, (lookupD s.values z).isSome = true →
    s.base_year - s.year_zero ≤ z ∧ z ≤ hi
  maxEq : intMax? (s.values.map Prod.fst) = some hi
  fwdSafe : ∀ k : Int, s.base_year - s.year_zero < k → k ≤ hi →
    dfact s.dp k ≠ 0

/-- Unfolding equation for one discount extension step. -/
theorem extendLoop_succ (s : IndexSeries) (cur : Int) (n : Nat) (v r : ℚ)
    (hv : lookupD s.values cur = some v) (hr : rate s (cur + 1) = .ok r) :
    extendLoop s cur (n + 1) =
      if 1 + r = 0 then (s, some .zeroDivision)
      else extendLoop
        { s with values := insertD s.values (cur + 1) (v / (1 + r)) }
        (cur + 1) n := by
  conv_lhs => rw [extendLoop]
  rw [hv, hr]

/-- Pushing the canonical factor for `hi + 1` onto an invariant cache
preserves the invariant when the divisor is nonzero. -/
theorem DInv.pushD {s : IndexSeries} {hi : Int} (h : DInv s hi)
    (hfz : dfact s.dp (hi + 1) ≠ 0) (w : ℚ)
    (hw : w = dcanonVal s.dp hi / (1 + rateQ s.dp (hi + 1))) :
    DInv { s with values := insertD s.values (hi + 1) w } (hi + 1) := by
  have hval : w = dcanonVal s.dp (hi + 1) := by
    rw [hw, dcanonVal_succ s.dp hi h.lo_le]
    rfl
  refine ⟨h.entries_ne,
    by have ha := h.lo_le; show s.base_year - s.year_zero ≤ hi + 1; omega,
    ?_, ?_, ?_, ?_⟩
  · intro z hz1 hz2
    show lookupD (insertD s.values (hi + 1) w) z =
      some (dcanonVal s.dp z)
    rw [lookupD_cons]
    by_cases hz : z = hi + 1
    · rw [if_pos hz, hz]
      rw [hval]
    · rw [if_neg hz]
      exact h.cached z hz1 (by omega)
  · intro z hz
    show s.base_year - s.year_zero ≤ z ∧ z ≤ hi + 1
    rw [show ({ s with values := insertD s.values (hi + 1) w} :
        IndexSeries).values = insertD s.values (hi + 1) w from rfl,
      lookupD_cons] at hz
    by_cases hz' : z = hi + 1
    · have ha := h.lo_le
      omega
    · rw [if_neg hz'] at hz
      have := h.inRange z hz
      omega
  · show intMax? ((hi + 1) :: s.values.map Prod.fst) = some (hi + 1)
    rw [intMax?_cons, h.maxEq]
    have hm : max (hi + 1) hi = hi + 1 := by omega
    simp [hm]
  · intro k hk1 hk2
    show dfact s.dp k ≠ 0
    by_cases hk : k = hi + 1
    · rwa [hk]
    · exact h.fwdSafe k hk1 (by omega)

theorem extendLoop_spec (n : Nat) :
    ∀ s hi, DInv s hi →
      ((∀ i : Nat, i < n → dfact s.dp (hi + 1 + (i : Int)) ≠ 0) →
        ∃ s', extendLoop s hi n = (s', none) ∧ DInv s' (hi + n) ∧
          sameShape s s' ∧
          (∀ z v, lookupD s.values z = some v →
            lookupD s'.values z = some v)) ∧
      ((¬ ∀ i : Nat, i < n → dfact s.dp (hi + 1 + (i : Int)) ≠ 0) →
        ∃ s' hi', extendLoop s hi n = (s', some .zeroDivision) ∧
          DInv s' hi' ∧ hi ≤ hi' ∧ sameShape s s' ∧
          (∀ z v, lookupD s.values z = some v →
            lookupD s'.values z = some v)) := by
  induction n with
  | zero =>
    intro s hi h
    constructor
    · intro _
      refine ⟨s, rfl, ?_, sameShape_refl s, fun z v hv => hv⟩
      have hcast : hi + ((0 : Nat) : Int) = hi := by push_cast; omega
      rw [hcast]
      exact h
    · intro hbad
      exact absurd (fun i hi => absurd hi (by omega)) hbad
  | succ n ih =>
    intro s hi h
    have hv : lookupD s.values hi = some (dcanonVal s.dp hi) :=
      h.cached hi h.lo_le le_rfl
    have hr : rate s (hi + 1) = .ok (rateQ s.dp (hi + 1)) :=
      rate_eq s (hi + 1) h.entries_ne
    rw [extendLoop_succ s hi n _ _ hv hr]
    by_cases hf : 1 + rateQ s.dp (hi + 1) = 0
    · rw [if_pos hf]
      constructor
      · intro hall
        have h0 := hall 0 (by omega)
        have hidx : hi + 1 + ((0 : Nat) : Int) = hi + 1 := by
          push_cast
          omega
        rw [hidx] at h0
        exact absurd hf h0
      · intro _
        exact ⟨s, hi, rfl, h, le_rfl, sameShape_refl s, fun z v hv => hv⟩
    · rw [if_neg hf]
      have hfz : dfact s.dp (hi + 1) ≠ 0 := hf
      have h1 := h.pushD hfz _ rfl
      obtain ⟨ihT, ihF⟩ := ih _ (hi + 1) h1
      have hshape1 : sameShape s { s with values := insertD s.values (hi + 1) (dcanonVal s.dp hi / (1 + rateQ s.dp (hi + 1))) } :=
        ⟨rfl, rfl, rfl, rfl, rfl⟩
      have hmono1 : ∀ z v, lookupD s.values z = some v →
          lookupD (insertD s.values (hi + 1)
            (dcanonVal s.dp hi / (1 + rateQ s.dp (hi + 1)))) z = some v := by
        intro z v hzv
        rw [lookupD_cons]
        have hz := h.inRange z (by rw [hzv]; rfl)
        rw [if_neg (by omega)]
        exact hzv
      constructor
      · intro hall
        have hall' : ∀ i : Nat, i < n →
            dfact s.dp (hi + 1 + 1 + (i : Int)) ≠ 0 := by
          intro i hin
          have := hall (i + 1) (by omega)
          have hidx : hi + 1 + ((i + 1 : Nat) : Int) = hi + 1 + 1 + (i : Int) := by
            push_cast
            omega
          rwa [hidx] at this
        obtain ⟨s', hrun, hinv, hshape, hmono⟩ := ihT hall'
        refine ⟨s', hrun, ?_, sameShape_trans hshape1 hshape,
          fun z v hzv => hmono z v (hmono1 z v hzv)⟩
        have hcast : hi + ((n + 1 : Nat) : Int) = hi + 1 + (n : Int) := by
          push_cast
          omega
        rw [hcast]
        exact hinv
      · intro hbad
        have hbad' : ¬ ∀ i : Nat, i < n →
            dfact s.dp (hi + 1 + 1 + (i : Int)) ≠ 0 := by
          intro hall'
          apply hbad
          intro i hin
          cases i with
          | zero =>
            have hidx : hi + 1 + ((0 : Nat) : Int) = hi + 1 := by
              push_cast
              omega
            rw [hidx]
            exact hfz
          | succ j =>
            have := hall' j (by omega)
            have hidx : hi + 1 + 1 + (j : Int) = hi + 1 + ((j + 1 : Nat) : Int) := by
              push_cast
              omega
            rwa [hidx] at this
        obtain ⟨s', hi', hrun, hinv, hhi, hshape, hmono⟩ := ihF hbad'
        exact ⟨s', hi', hrun, hinv, by omega, sameShape_trans hshape1 hshape,
          fun z v hzv => hmono z v (hmono1 z v hzv)⟩

/-- The central lemma for `Discount`: on an invariant state,
`Discount.__getitem__` returns exactly the canonical result for the
relative year (factor 1.0 below the seeded year via the caught
`KeyError`), again leaving an invariant state with the cache only
extended. -/
theorem getItem_specD (s : IndexSeries) (hi : Int) (h : DInv s hi)
    (year : Int) :
    ∃ s' hi',
      getItem s year = (dgetE s.dp (year - s.year_zero), s') ∧
      DInv s' hi' ∧ hi ≤ hi' ∧ sameShape s s' ∧
      (∀ z v, lookupD s.values z = some v → lookupD s'.values z = some v) := by
  have hdpb : s.dp.by_ = s.base_year := rfl
  have hdpz : s.dp.yz = s.year_zero := rfl
  by_cases hin : (lookupD s.values (year - s.year_zero)).isSome = true
  · obtain ⟨hr1, hr2⟩ := h.inRange _ hin
    have hc := h.cached _ hr1 hr2
    have hok : dFwdOkB s.dp (year - s.year_zero) = true := by
      rw [dFwdOkB_iff]
      intro k hk1 hk2
      exact h.fwdSafe k hk1 (by omega)
    refine ⟨s, hi, ?_, h, le_rfl, sameShape_refl s, fun z v hv => hv⟩
    unfold getItem
    rw [IndexSeries.getItem_cached extendValues s year _ hc]
    show ((Except.ok (dcanonVal s.dp (year - s.year_zero)) :
        Except PyErr ℚ), s) = (dgetE s.dp (year - s.year_zero), s)
    unfold dgetE
    rw [if_pos hok]
  · rw [Bool.not_eq_true] at hin
    have hout : year - s.year_zero < s.base_year - s.year_zero ∨
        hi < year - s.year_zero := by
      by_contra hcon
      push_neg at hcon
      have := h.cached _ hcon.1 hcon.2
      rw [this] at hin
      simp at hin
    have hev : extendValues s (year - s.year_zero) =
        extendLoop s hi ((year - s.year_zero) - hi).toNat := by
      unfold extendValues
      rw [h.maxEq]
    rcases hout with hlt | hgt
    · -- below the seeded year: empty loop, KeyError, caught → 1.0
      have hlh := h.lo_le
      have hn0 : ((year - s.year_zero) - hi).toNat = 0 := by omega
      rw [hn0] at hev
      have hev0 : extendValues s (year - s.year_zero) = (s, none) := hev
      have hmiss : lookupD s.values (year - s.year_zero) = none := by
        cases hl : lookupD s.values (year - s.year_zero) with
        | none => rfl
        | some q => rw [hl] at hin; simp at hin
      have hig := IndexSeries.getItem_extend_miss extendValues s s year
        hin hev0 hmiss
      refine ⟨s, hi, ?_, h, le_rfl, sameShape_refl s, fun z v hv => hv⟩
      unfold getItem
      rw [hig]
      show ((Except.ok 1 : Except PyErr ℚ), s) =
        (dgetE s.dp (year - s.year_zero), s)
      unfold dgetE
      rw [if_pos (dFwdOkB_of_le s.dp _ (by omega)),
        dcanonVal_le s.dp _ (by omega)]
    · obtain ⟨ihT, ihF⟩ :=
        extendLoop_spec ((year - s.year_zero) - hi).toNat s hi h
      by_cases hall : ∀ i : Nat, i < ((year - s.year_zero) - hi).toNat →
          dfact s.dp (hi + 1 + (i : Int)) ≠ 0
      · obtain ⟨s', hrun, hinv, hshape, hmono⟩ := ihT hall
        have hhi' : hi + (((year - s.year_zero) - hi).toNat : Int) =
            year - s.year_zero := by omega
        rw [hhi'] at hinv
        have hc := hinv.cached (year - s.year_zero)
          (by rw [hshape.1, hshape.2.1]; have := h.lo_le; omega) le_rfl
        rw [dp_congr hshape] at hc
        have hok : dFwdOkB s.dp (year - s.year_zero) = true := by
          rw [dFwdOkB_iff]
          intro k hk1 hk2
          by_cases hk : k ≤ hi
          · exact h.fwdSafe k hk1 hk
          · have hik : (k - hi - 1).toNat <
                ((year - s.year_zero) - hi).toNat := by omega
            have := hall _ hik
            have hidx : hi + 1 + (((k - hi - 1).toNat : Nat) : Int) = k := by
              omega
            rwa [hidx] at this
        have hig := IndexSeries.getItem_extend_ok extendValues s s' year _
          hin (by rw [hev, hrun]) hc
        refine ⟨s', year - s.year_zero, ?_, hinv, by omega, hshape, hmono⟩
        unfold getItem
        rw [hig]
        show ((Except.ok (dcanonVal s.dp (year - s.year_zero)) :
            Except PyErr ℚ), s') = (dgetE s.dp (year - s.year_zero), s')
        unfold dgetE
        rw [if_pos hok]
      · obtain ⟨s', hi', hrun, hinv, hhi, hshape, hmono⟩ := ihF hall
        have hbad : dFwdOkB s.dp (year - s.year_zero) = false := by
          have hlo0 := h.lo_le
          push_neg at hall
          obtain ⟨i, hilt, hieq⟩ := hall
          by_contra hcon
          rw [Bool.not_eq_false, dFwdOkB_iff] at hcon
          exact absurd (hcon (hi + 1 + (i : Int)) (by omega) (by omega))
            (by simpa using hieq)
        have hig := IndexSeries.getItem_extend_error extendValues s s' year
          _ hin (by rw [hev, hrun])
        refine ⟨s', hi', ?_, hinv, hhi, hshape, hmono⟩
        unfold getItem
        rw [hig]
        show ((Except.error PyErr.zeroDivision : Except PyErr ℚ), s') =
          (dgetE s.dp (year - s.year_zero), s')
        unfold dgetE
        rw [hbad]
        rfl

/-- A successfully constructed (intended) discount series satisfies the
cache invariant: the cache covers `[base_year - year_zero, hi]` for some
`hi` (the initial `_extend_values(0)` extends forward to relative year 0
when `base_year > year_zero` would make the seed negative). -/
theorem make_inv (by_ : Int) (rates? : Option YDict) (yz? : Option Int)
    (g : IndexSeries) (h : make by_ rates? yz? = .ok g) :
    ∃ hi, DInv g hi ∧ g.base_year = by_ ∧ g.year_zero = yz?.getD by_ := by
  unfold make at h
  obtain ⟨s0, hby, hyz, hvals, hextf, hne, hrun⟩ :=
    IndexSeries.init_ok _ _ _ _ _ _ _ h
  have hvals' : s0.values = [(s0.base_year - s0.year_zero, 1)] := by
    rw [hvals, hby, hyz]
  have hseed : DInv s0 (s0.base_year - s0.year_zero) := by
    refine ⟨hne, le_rfl, ?_, ?_, ?_, ?_⟩
    · intro z hz1 hz2
      have hz : z = s0.base_year - s0.year_zero := le_antisymm hz2 hz1
      subst hz
      rw [hvals']
      show lookupD (insertD [] (s0.base_year - s0.year_zero) 1) _ = _
      rw [lookupD_cons, if_pos rfl, dcanonVal_le s0.dp _ (by
        have h1 : s0.dp.by_ = s0.base_year := rfl
        have h2 : s0.dp.yz = s0.year_zero := rfl
        omega)]
    · intro z hz
      rw [hvals'] at hz
      have heq : lookupD (insertD [] (s0.base_year - s0.year_zero) 1) z =
          lookupD [(s0.base_year - s0.year_zero, (1 : ℚ))] z := rfl
      rw [← heq, lookupD_cons] at hz
      by_cases h0 : z = s0.base_year - s0.year_zero
      · omega
      · rw [if_neg h0] at hz
        simp [lookupD] at hz
    · rw [hvals']
      rfl
    · intro k hk1 hk2
      omega
  have hev : extendValues s0 0 =
      extendLoop s0 (s0.base_year - s0.year_zero)
        ((0 : Int) - (s0.base_year - s0.year_zero)).toNat := by
    unfold extendValues
    rw [hseed.maxEq]
  obtain ⟨ihT, ihF⟩ := extendLoop_spec
    ((0 : Int) - (s0.base_year - s0.year_zero)).toNat s0
    (s0.base_year - s0.year_zero) hseed
  by_cases hall : ∀ i : Nat,
      i < ((0 : Int) - (s0.base_year - s0.year_zero)).toNat →
      dfact s0.dp (s0.base_year - s0.year_zero + 1 + (i : Int)) ≠ 0
  · obtain ⟨s', hrun', hinv, hshape, hmono⟩ := ihT hall
    rw [hev, hrun'] at hrun
    have hgs : s' = g := by
      injection hrun
    subst hgs
    refine ⟨_, hinv, ?_, ?_⟩
    · rw [hshape.1, hby]
    · rw [hshape.2.1, hyz]
  · obtain ⟨s', hi', hrun', hinv, hhi, hshape, hmono⟩ := ihF hall
    rw [hev, hrun'] at hrun
    have : (some PyErr.zeroDivision : Option PyErr) = none := by
      injection hrun
    exact absurd this (by simp)

end Discount

/-!
## Query sequences and memoization claims
-/

/-- Run a sequence of `Discount.__getitem__` calls, keeping the evolved
state. -/
def runQueriesD (s : IndexSeries) (qs : List Int) : IndexSeries :=
  qs.foldl (fun t y => (Discount.getItem t y).2) s

/-- Run a sequence of `GdpDeflator.__getitem__` calls, keeping the
evolved state. -/
def runQueriesG (s : IndexSeries) (qs : List Int) : IndexSeries :=
  qs.foldl (fun t y => (GdpDeflator.getItem t y).2) s

theorem runQueriesD_inv (qs : List Int) :
    ∀ s hi, Discount.DInv s hi →
    ∃ hi', Discount.DInv (runQueriesD s qs) hi' ∧
      sameShape s (runQueriesD s qs) ∧
      (∀ z v, lookupD s.values z = some v →
        lookupD (runQueriesD s qs).values z = some v) := by
  induction qs with
  | nil =>
    intro s hi h
    exact ⟨hi, h, sameShape_refl s, fun z v hv => hv⟩
  | cons y qs ih =>
    intro s hi h
    obtain ⟨s', hi', hget, hinv, hhi, hshape, hmono⟩ :=
      Discount.getItem_specD s hi h y
    have h2 : (Discount.getItem s y).2 = s' := by rw [hget]
    have hstep : runQueriesD s (y :: qs) = runQueriesD s' qs := by
      show runQueriesD (Discount.getItem s y).2 qs = _
      rw [h2]
    rw [hstep]
    obtain ⟨hi'', hinv', hshape', hmono'⟩ := ih s' hi' hinv
    exact ⟨hi'', hinv', sameShape_trans hshape hshape',
      fun z v hv => hmono' z v (hmono z v hv)⟩

theorem runQueriesG_inv (qs : List Int) :
    ∀ s lo hi, GdpDeflator.Inv s lo hi →
    ∃ lo' hi', GdpDeflator.Inv (runQueriesG s qs) lo' hi' ∧
      sameShape s (runQueriesG s qs) ∧
      (∀ z v, lookupD s.values z = some v →
        lookupD (runQueriesG s qs).values z = some v) := by
  induction qs with
  | nil =>
    intro s lo hi h
    exact ⟨lo, hi, h, sameShape_refl s, fun z v hv => hv⟩
  | cons y qs ih =>
    intro s lo hi h
    obtain ⟨s', lo', hi', hget, hinv, hlo, hhi, hshape, hmono⟩ :=
      GdpDeflator.getItem_specG s lo hi h y
    have h2 : (GdpDeflator.getItem s y).2 = s' := by rw [hget]
    have hstep : runQueriesG s (y :: qs) = runQueriesG s' qs := by
      show runQueriesG (GdpDeflator.getItem s y).2 qs = _
      rw [h2]
    rw [hstep]
    obtain ⟨lo'', hi'', hinv', hshape', hmono'⟩ := ih s' lo' hi' hinv
    exact ⟨lo'', hi'', hinv', sameShape_trans hshape hshape',
      fun z v hv => hmono' z v (hmono z v hv)⟩

/-- C5: for constructed series of either class, the value cache only ever
grows — after any query sequence, a further lookup preserves every cached
entry with its exact value — and the result of `valueAt(y)` is the
canonical value determined by the constructed parameters alone, hence
independent of which queries (in whatever order) were made before:
repeated calls return identical values. (`Discount` uses the intended
constructor, cf. C9.) -/
theorem c5_memoization (byD : Int) (ratesD? : Option YDict)
    (yzD? : Option Int) (d0 : IndexSeries)
    (hd : Discount.make byD ratesD? yzD? = .ok d0)
    (byG : Int) (ratesG : YDict) (extG : Bool) (g0 : IndexSeries)
    (hg : GdpDeflator.init byG ratesG extG = .ok g0) :
    (∀ qs y z v, lookupD (runQueriesD d0 qs).values z = some v →
      lookupD (runQueriesD d0 (qs ++ [y])).values z = some v) ∧
    (∀ qs qs' y, (Discount.getItem (runQueriesD d0 qs) y).1 =
      (Discount.getItem (runQueriesD d0 qs') y).1) ∧
    (∀ qs y z v, lookupD (runQueriesG g0 qs).values z = some v →
      lookupD (runQueriesG g0 (qs ++ [y])).values z = some v) ∧
    (∀ qs qs' y, (GdpDeflator.getItem (runQueriesG g0 qs) y).1 =
      (GdpDeflator.getItem (runQueriesG g0 qs') y).1) := by
  obtain ⟨hiD, hDinv, hdby, hdyz⟩ := Discount.make_inv _ _ _ _ hd
  obtain ⟨hGinv, hgyz, hgby, hgne⟩ := GdpDeflator.init_inv _ _ _ _ hg
  have keyD : ∀ qs y, (Discount.getItem (runQueriesD d0 qs) y).1 =
      Discount.dgetE d0.dp (y - d0.year_zero) := by
    intro qs y
    obtain ⟨hi1, hinv1, hshape1, _⟩ := runQueriesD_inv qs d0 hiD hDinv
    obtain ⟨s1, hi1', hget1, _, _, _, _⟩ :=
      Discount.getItem_specD _ hi1 hinv1 y
    have e1 : (Discount.getItem (runQueriesD d0 qs) y).1 =
        Discount.dgetE (runQueriesD d0 qs).dp
          (y - (runQueriesD d0 qs).year_zero) := by
      rw [hget1]
    rw [e1, dp_congr hshape1, hshape1.2.1]
  have keyG : ∀ qs y, (GdpDeflator.getItem (runQueriesG g0 qs) y).1 =
      GdpDeflator.canonE g0.rates (y - g0.year_zero) := by
    intro qs y
    obtain ⟨lo1, hi1, hinv1, hshape1, _⟩ :=
      runQueriesG_inv qs g0 0 0 hGinv
    obtain ⟨s1, lo1', hi1', hget1, _, _, _, _, _⟩ :=
      GdpDeflator.getItem_specG _ lo1 hi1 hinv1 y
    have e1 : (GdpDeflator.getItem (runQueriesG g0 qs) y).1 =
        GdpDeflator.canonE (runQueriesG g0 qs).rates
          (y - (runQueriesG g0 qs).year_zero) := by
      rw [hget1]
    rw [e1, hshape1.2.2.1, hshape1.2.1]
  refine ⟨?_, ?_, ?_, ?_⟩
  · intro qs y z v hv
    obtain ⟨hi1, hinv1, hshape1, _⟩ := runQueriesD_inv qs d0 hiD hDinv
    obtain ⟨s1, hi1', hget1, _, _, _, hmono1⟩ :=
      Discount.getItem_specD _ hi1 hinv1 y
    have happ : runQueriesD d0 (qs ++ [y]) =
        (Discount.getItem (runQueriesD d0 qs) y).2 := by
      unfold runQueriesD
      rw [List.foldl_append]
      rfl
    have h2 : (Discount.getItem (runQueriesD d0 qs) y).2 = s1 := by
      rw [hget1]
    rw [happ, h2]
    exact hmono1 z v hv
  · intro qs qs' y
    rw [keyD qs y, keyD qs' y]
  · intro qs y z v hv
    obtain ⟨lo1, hi1, hinv1, hshape1, _⟩ :=
      runQueriesG_inv qs g0 0 0 hGinv
    obtain ⟨s1, lo1', hi1', hget1, _, _, _, _, hmono1⟩ :=
      GdpDeflator.getItem_specG _ lo1 hi1 hinv1 y
    have happ : runQueriesG g0 (qs ++ [y]) =
        (GdpDeflator.getItem (runQueriesG g0 qs) y).2 := by
      unfold runQueriesG
      rw [List.foldl_append]
      rfl
    have h2 : (GdpDeflator.getItem (runQueriesG g0 qs) y).2 = s1 := by
      rw [hget1]
    rw [happ, h2]
    exact hmono1 z v hv
  · intro qs qs' y
    rw [keyG qs y, keyG qs' y]

/-- C5 witness: the 2135 lookup returns the same result whether queried on
a fresh `Discount(2010)` or after other queries, and a cached 2012 entry
of the deflator survives a later faraway query. -/
theorem c5_memoization_witness :
    (Discount.getItem (runQueriesD discount2010 []) 2135).1 =
      (Discount.getItem (runQueriesD discount2010 [2050, 2020]) 2135).1 ∧
    (GdpDeflator.getItem (runQueriesG gdp2010 []) 2012).1 =
      (GdpDeflator.getItem (runQueriesG gdp2010 [2015, 2005]) 2012).1 := by
  have h := c5_memoization 2010 none none discount2010 discount2010_make
    2010 [(2009, 3/100), (2010, 3/100), (2011, 3/100)] false gdp2010
    gdp2010_init
  exact ⟨h.2.1 [] [2050, 2020] 2135, h.2.2.2 [] [2015, 2005] 2012⟩

/-!
## Conversion-factor reciprocity (C4)
-/

namespace GdpDeflator

theorem conversion_factor_eq (s s1 s2 : IndexSeries) (yf yt : Int)
    (vt vf : ℚ) (h1 : getItem s yt = (.ok vt, s1))
    (h2 : getItem s1 yf = (.ok vf, s2)) (hf : vf ≠ 0) :
    conversion_factor s yf (some yt) = (.ok (vt / vf), s2) := by
  unfold conversion_factor
  show (match getItem s yt with
        | (.error e, t) => ((Except.error e : Except PyErr ℚ), t)
        | (.ok w, t) =>
          match getItem t yf with
          | (.error e, t2) => ((Except.error e : Except PyErr ℚ), t2)
          | (.ok u, t2) =>
            if u = 0 then ((Except.error PyErr.zeroDivision :
              Except PyErr ℚ), t2)
            else (.ok (w / u), t2)) = (.ok (vt / vf), s2)
  rw [h1]
  show (match getItem s1 yf with
        | (.error e, t2) => ((Except.error e : Except PyErr ℚ), t2)
        | (.ok u, t2) =>
          if u = 0 then ((Except.error PyErr.zeroDivision :
            Except PyErr ℚ), t2)
          else (.ok (vt / u), t2)) = (.ok (vt / vf), s2)
  rw [h2]
  show (if vf = 0 then ((Except.error PyErr.zeroDivision :
      Except PyErr ℚ), s2) else (.ok (vt / vf), s2)) = (.ok (vt / vf), s2)
  rw [if_neg hf]

end GdpDeflator

/-- C4: for every constructed deflator and years `a`, `b` whose lookups
return nonzero index values, `conversionFactor(a, b)` and
`conversionFactor(b, a)` both succeed and are exact reciprocals; `yearTo`
defaults to the base year. -/
theorem c4_conversion_reciprocal (by_ : Int) (rates : YDict) (ext : Bool)
    (g : IndexSeries) (hg : GdpDeflator.init by_ rates ext = .ok g)
    (a b : Int) (va vb : ℚ)
    (hva : (GdpDeflator.getItem g a).1 = .ok va) (hvaz : va ≠ 0)
    (hvb : (GdpDeflator.getItem g b).1 = .ok vb) (hvbz : vb ≠ 0) :
    (GdpDeflator.conversion_factor g a (some b)).1 = .ok (vb / va) ∧
    (GdpDeflator.conversion_factor g b (some a)).1 = .ok (va / vb) ∧
    vb / va = 1 / (va / vb) ∧
    GdpDeflator.conversion_factor g a none =
      GdpDeflator.conversion_factor g a (some g.base_year) := by
  obtain ⟨hInv, hgyz, hgby, hgne⟩ := GdpDeflator.init_inv _ _ _ _ hg
  obtain ⟨sa, loa, hia, hgeta, hinva, hloa, hhia, hshapea, _⟩ :=
    GdpDeflator.getItem_specG g 0 0 hInv a
  obtain ⟨sb, lob, hib, hgetb, hinvb, hlob, hhib, hshapeb, _⟩ :=
    GdpDeflator.getItem_specG g 0 0 hInv b
  have hea : GdpDeflator.canonE g.rates (a - g.year_zero) = .ok va := by
    have e : (GdpDeflator.getItem g a).1 =
        GdpDeflator.canonE g.rates (a - g.year_zero) := by rw [hgeta]
    exact e.symm.trans hva
  have heb : GdpDeflator.canonE g.rates (b - g.year_zero) = .ok vb := by
    have e : (GdpDeflator.getItem g b).1 =
        GdpDeflator.canonE g.rates (b - g.year_zero) := by rw [hgetb]
    exact e.symm.trans hvb
  -- second lookups on the extended states still return the canonical values
  obtain ⟨sba, loba, hiba, hgetba, _, _, _, hshapeba, _⟩ :=
    GdpDeflator.getItem_specG sb lob hib hinvb a
  obtain ⟨sab, loab, hiab, hgetab, _, _, _, hshapeab, _⟩ :=
    GdpDeflator.getItem_specG sa loa hia hinva b
  have hgetb' : GdpDeflator.getItem g b =
      (.ok vb, sb) := by
    rw [hgetb, heb]
  have hgeta' : GdpDeflator.getItem g a =
      (.ok va, sa) := by
    rw [hgeta, hea]
  have hgetba' : GdpDeflator.getItem sb a = (.ok va, sba) := by
    rw [hgetba, hshapeb.2.2.1, hshapeb.2.1, hea]
  have hgetab' : GdpDeflator.getItem sa b = (.ok vb, sab) := by
    rw [hgetab, hshapea.2.2.1, hshapea.2.1, heb]
  refine ⟨?_, ?_, ?_, ?_⟩
  · rw [GdpDeflator.conversion_factor_eq g sb sba a b vb va hgetb'
      hgetba' hvaz]
  · rw [GdpDeflator.conversion_factor_eq g sa sab b a va vb hgeta'
      hgetab' hvbz]
  · rw [one_div, inv_div]
  · unfold GdpDeflator.conversion_factor
    rfl

/-- C4 witness: on the C3 deflator, the 2012 ↔ 2008 conversion factors
are reciprocal. -/
theorem c4_conversion_reciprocal_witness :
    (GdpDeflator.conversion_factor gdp2010 2012 (some 2008)).1 =
      .ok ((10000/103) / (10609/100)) ∧
    (GdpDeflator.conversion_factor gdp2010 2008 (some 2012)).1 =
      .ok ((10609/100) / (10000/103)) ∧
    ((10000 : ℚ)/103) / (10609/100) =
      1 / ((10609/100) / (10000/103)) := by
  have h := c4_conversion_reciprocal 2010
    [(2009, 3/100), (2010, 3/100), (2011, 3/100)] false gdp2010 gdp2010_init
    2012 2008 (10609/100) (10000/103)
    (eq_ok_of_parts _ _ (by with_unfolding_all decide)
      (by with_unfolding_all decide) (by with_unfolding_all decide))
    (by norm_num)
    (eq_ok_of_parts _ _ (by with_unfolding_all decide)
      (by with_unfolding_all decide) (by with_unfolding_all decide))
    (by norm_num)
  exact ⟨h.1, h.2.1, h.2.2.1⟩

/-!
## Totality of lookups (C6)
-/

theorem RateDict.getItem?_val_mem (d : RateDict) (k : Int) (r : ℚ)
    (h : d.getItem? k = some r) : ∃ k', (k', r) ∈ d.entries := by
  unfold RateDict.getItem? at h
  split at h
  · next v heq =>
    have hv : v = r := by injection h
    exact ⟨k, hv ▸ lookupD_mem _ _ _ heq⟩
  · split at h
    · split at h
      · split at h
        · exact ⟨_, lookupD_mem _ _ _ h⟩
        · split at h
          · exact ⟨_, lookupD_mem _ _ _ h⟩
          · exact absurd h (by simp)
      · exact absurd h (by simp)
    · exact absurd h (by simp)

/-- No rate in the (infilled) table, nor the initial or final rate, equals
-1: the decidable sufficient condition under which discount extension
never divides by zero. -/
def GoodD (s : IndexSeries) : Prop :=
  (∀ p ∈ s.rates.entries, (1 : ℚ) + p.2 ≠ 0) ∧
  1 + s.initial_rate ≠ 0 ∧ 1 + s.final_rate ≠ 0

instance (s : IndexSeries) : Decidable (GoodD s) := by
  unfold GoodD
  infer_instance

/-- No rate in the table equals -1: the decidable sufficient condition
under which deflator extension never divides by zero. -/
def GoodG (s : IndexSeries) : Prop :=
  ∀ p ∈ s.rates.entries, (1 : ℚ) + p.2 ≠ 0

instance (s : IndexSeries) : Decidable (GoodG s) := by
  unfold GoodG
  infer_instance

theorem dfact_ne_zero_of_good (s : IndexSeries) (hgd : GoodD s) (k : Int) :
    Discount.dfact s.dp k ≠ 0 := by
  have hrd : s.dp.rd = s.rates := rfl
  have hir : s.dp.ir = s.initial_rate := rfl
  have hfr : s.dp.fr = s.final_rate := rfl
  unfold Discount.dfact Discount.rateQ
  rw [hrd, hir, hfr]
  split
  · norm_num
  · cases hgi : s.rates.getItem? k with
    | some r =>
      obtain ⟨k', hmem⟩ := RateDict.getItem?_val_mem _ _ _ hgi
      show (1 : ℚ) + r ≠ 0
      exact hgd.1 _ hmem
    | none =>
      cases hmn : intMin? (s.rates.entries.map Prod.fst) with
      | none =>
        show (1 : ℚ) + 0 ≠ 0
        norm_num
      | some mn =>
        show 1 + (if k < mn then s.initial_rate else s.final_rate) ≠ 0
        split
        · exact hgd.2.1
        · exact hgd.2.2

theorem gfact_ne_zero_of_good (s : IndexSeries) (hgg : GoodG s) (k : Int) :
    GdpDeflator.gfact s.rates k ≠ 0 := by
  unfold GdpDeflator.gfact RateDict.get
  cases hgi : s.rates.getItem? k with
  | some r =>
    obtain ⟨k', hmem⟩ := RateDict.getItem?_val_mem _ _ _ hgi
    simpa using hgg _ hmem
  | none => norm_num

/-- C6 (amended): for every constructed series (the intended constructor
for `Discount`, cf. C9) none of whose applicable rates equals -1, both
`valueAt` and `rateAt` return a float for every integer year — out-of-range
years are extrapolated, never rejected. `rateAt` is total even without the
rate condition. -/
theorem c6_total_lookups (byD : Int) (ratesD? : Option YDict)
    (yzD? : Option Int) (d0 : IndexSeries)
    (hd : Discount.make byD ratesD? yzD? = .ok d0) (hgoodD : GoodD d0)
    (byG : Int) (ratesG : YDict) (extG : Bool) (g0 : IndexSeries)
    (hg : GdpDeflator.init byG ratesG extG = .ok g0) (hgoodG : GoodG g0) :
    (∀ y : Int, exOk (Discount.getItem d0 y).1 = true) ∧
    (∀ y : Int, exOk (Discount.rate d0 y) = true) ∧
    (∀ y : Int, exOk (GdpDeflator.getItem g0 y).1 = true) ∧
    (∀ y : Int, exOk (IndexSeries.rate g0 y) = true) := by
  obtain ⟨hiD, hDinv, hdby, hdyz⟩ := Discount.make_inv _ _ _ _ hd
  obtain ⟨hGinv, hgyz, hgby, hgne⟩ := GdpDeflator.init_inv _ _ _ _ hg
  refine ⟨?_, ?_, ?_, ?_⟩
  · intro y
    obtain ⟨s', hi', hget, _, _, _, _⟩ :=
      Discount.getItem_specD d0 hiD hDinv y
    have e : (Discount.getItem d0 y).1 =
        Discount.dgetE d0.dp (y - d0.year_zero) := by rw [hget]
    rw [e]
    unfold Discount.dgetE
    rw [if_pos ((Discount.dFwdOkB_iff _ _).mpr
      (fun k _ _ => dfact_ne_zero_of_good d0 hgoodD k))]
    rfl
  · intro y
    rw [Discount.rate_eq d0 y hDinv.entries_ne]
    rfl
  · intro y
    obtain ⟨s', lo', hi', hget, _, _, _, _, _⟩ :=
      GdpDeflator.getItem_specG g0 0 0 hGinv y
    have e : (GdpDeflator.getItem g0 y).1 =
        GdpDeflator.canonE g0.rates (y - g0.year_zero) := by rw [hget]
    rw [e]
    unfold GdpDeflator.canonE
    rw [if_pos ((GdpDeflator.backOkB_iff _ _).mpr
      (fun k _ _ => gfact_ne_zero_of_good g0 hgoodG k))]
    rfl
  · intro y
    unfold IndexSeries.rate
    cases hgi : g0.rates.getItem? y with
    | some r => rfl
    | none =>
      cases hmn : intMin? (g0.rates.entries.map Prod.fst) with
      | none =>
        rw [intMin?_eq_none_iff, List.map_eq_nil_iff] at hmn
        exact absurd hmn hgne
      | some mn => rfl

/-- The deflator whose 2009 rate is exactly -1.0. -/
def gdpBad : IndexSeries :=
  ((GdpDeflator.init 2010 [(2009, -1), (2010, 0)] false).toOption).getD
    dummySeries

/-- C6 counterexample: a constructed deflator with rate -1.0 raises
`ZeroDivisionError` from `valueAt(2008)` (backward extension divides by
`1 + (-1) = 0`), so lookups are not exception-free for every constructed
series as claimed. -/
theorem c6_zero_division_counterexample :
    (GdpDeflator.init 2010 [(2009, -1), (2010, 0)] false).isOk = true ∧
    (GdpDeflator.getItem gdpBad 2008).1 = .error .zeroDivision := by
  constructor
  · with_unfolding_all decide
  · with_unfolding_all decide

/-- C6 witness: far-out-of-range lookups on the concrete series return
floats. -/
theorem c6_total_lookups_witness :
    exOk (Discount.getItem discount2010 2500).1 = true ∧
    exOk (Discount.rate discount2010 1900) = true ∧
    exOk (GdpDeflator.getItem gdp2010 1995).1 = true ∧
    exOk (IndexSeries.rate gdp2010 2030) = true := by
  have h := c6_total_lookups 2010 none none discount2010 discount2010_make
    (by with_unfolding_all decide)
    2010 [(2009, 3/100), (2010, 3/100), (2011, 3/100)] false gdp2010
    gdp2010_init (by with_unfolding_all decide)
  exact ⟨h.1 2500, h.2.1 1900, h.2.2.1 1995, h.2.2.2 2030⟩
